import Mathlib

/-!
Verification development for the `nucleai` repository's SimDB data-model layer.

The Python source (`src/nucleai/simdb/models.py`, `src/nucleai/simdb/metadata.py`)
is shallowly embedded here:

* Python strings are embedded as `List Char` (`Str`), with the Python string
  methods used by the source (`startswith`, `endswith`, `split`, `strip`,
  `lstrip`, `replace`, `int(...)`) re-implemented faithfully over `Str`.
* JSON-like payloads (the SimDB REST API responses) are embedded as the
  inductive `JVal`; Python `dict`s become insertion-ordered association lists
  with last-write-wins overwrite (`dSet`), which matches CPython dict
  semantics.
* pydantic models become Lean structures, pydantic validation becomes
  `Except Str`-valued functions (an exception anywhere in validation is an
  `Except.error`), and pydantic's lax coercions for the field types that
  actually occur in these models are implemented explicitly.

The class `nucleai.core.models.ImasUri` (with `from_string`,
`can_convert_to_local`, `to_local` and an optimizing `__str__`) is imported by
`tests/test_imas/test_uri.py` and by `nucleai/imas`, but its definition is not
present under `src/`; where a property depends on it, it is modelled from the
specification and marked as such in its doc comment.
-/

/-- Embedded Python string: a list of characters. -/

abbrev Str := List Char

/-- Embedded Python dict with `Str` keys and values of type `α`:
an insertion-ordered association list with unique keys. -/

abbrev PyDict (α : Type) := List (Str × α)

/-- Python `s.startswith(p)`. -/

def pyStartswith (p s : Str) : Bool := p.isPrefixOf s

/-- Python `s.endswith(p)`. -/

def pyEndswith (p s : Str) : Bool := p.isSuffixOf s

/-- Python `s.split(c)` for a one-character separator: splits at every
occurrence of `c`, keeping empty pieces (`"".split(".") == [""]`). -/

def pySplitc (c : Char) : Str → List Str
  | [] => [[]]
  | ch :: rest =>
    match pySplitc c rest, decide (ch = c) with
    | r, true => [] :: r
    | [], false => [[ch]]
    | h :: t, false => (ch :: h) :: t

/-- Python `s.lstrip(chars)`: drop leading characters belonging to `cs`. -/

def pyLstrip (cs : List Char) (s : Str) : Str := s.dropWhile (fun c => cs.contains c)

/-- Python `s.strip(chars)`: drop characters belonging to `cs` from both ends. -/

def pyStripChars (cs : List Char) (s : Str) : Str :=
  ((s.dropWhile (fun c => cs.contains c)).reverse.dropWhile (fun c => cs.contains c)).reverse

/-- The ASCII whitespace characters recognised by Python `str.strip()`. -/

def pyWsChars : List Char := [' ', '\t', '\n', '\r', '\x0b', '\x0c']

/-- Python `s.strip()` (whitespace strip; ASCII whitespace modelled,
Unicode whitespace beyond ASCII is not). -/

def pyStripWs (s : Str) : Str := pyStripChars pyWsChars s

/-- Fuelled worker for Python `s.replace(pat, rep)`; the fuel bounds the
number of characters consumed, so the recursion is structural. -/

def pyReplaceAux (pat rep : Str) : Nat → Str → Str
  | 0, s => s
  | _ + 1, [] => []
  | n + 1, h :: t =>
    if pat ≠ [] ∧ pat.isPrefixOf (h :: t) then
      rep ++ pyReplaceAux pat rep n (t.drop (pat.length - 1))
    else
      h :: pyReplaceAux pat rep n t

/-- Python `s.replace(pat, rep)` for a non-empty pattern: replaces every
(left-to-right, non-overlapping) occurrence of `pat` by `rep`. -/

def pyReplace (s pat rep : Str) : Str := pyReplaceAux pat rep s.length s

/-- Does the character sequence match Python's integer-literal digit part,
`digit (["_"] digit)*` — this continuation accepts what may follow a digit. -/

def pyDigitsRest : Str → Bool
  | [] => true
  | '_' :: c :: rest => c.isDigit && pyDigitsRest rest
  | ['_'] => false
  | c :: rest => c.isDigit && pyDigitsRest rest

/-- Python integer-literal digit part `digit (["_"] digit)*`. -/

def pyDigitpart : Str → Bool
  | [] => false
  | c :: rest => c.isDigit && pyDigitsRest rest

/-- Numeric value of a digit string, underscores skipped. -/

def digitsVal (s : Str) : Nat :=
  (s.filter Char.isDigit).foldl (fun a c => a * 10 + (c.toNat - '0'.toNat)) 0

/-- Python `int(s)`: optional surrounding whitespace, optional sign, then a
digit part with optional single underscores between digits.  `none` models
`int()` raising `ValueError`.  (ASCII digits modelled; Unicode digits are
not.) -/

def pyIntOfStr (s : Str) : Option Int :=
  let t := pyStripWs s
  match t with
  | [] => none
  | c :: rest =>
    if c = '+' then (if pyDigitpart rest then some (digitsVal rest) else none)
    else if c = '-' then (if pyDigitpart rest then some (-(digitsVal rest : Int)) else none)
    else if pyDigitpart t then some (digitsVal t) else none

/-- Python `float(s)` restricted to plain decimal literals
`[sign] (digits [. [digits]] | . digits)`; exponents, `inf` and `nan` are not
modelled (they do not occur in this repository's data).  `none` models
`ValueError`. -/

def pyFloatOfStr (s : Str) : Option Rat :=
  let t := pyStripWs s
  let core := fun (u : Str) =>
    let intPart := u.takeWhile Char.isDigit
    let rest := u.dropWhile Char.isDigit
    match rest with
    | [] => if intPart ≠ [] then some ((digitsVal intPart : Int) : Rat) else none
    | '.' :: frac =>
      if frac.all Char.isDigit ∧ (intPart ≠ [] ∨ frac ≠ []) then
        some ((digitsVal intPart : Rat) + (digitsVal frac : Rat) / ((10 : Rat) ^ frac.length))
      else none
    | _ => none
  match t with
  | [] => none
  | '+' :: rest => core rest
  | '-' :: rest => (core rest).map (fun q => -q)
  | _ => core t

/-- First index of character `c` in `s`, if any. -/

def charIdx (c : Char) (s : Str) : Option Nat := s.findIdx? (fun d => d = c)

/-! ## Typed metadata models (`src/nucleai/simdb/metadata.py`)

Each pydantic model becomes a structure whose fields are all optional,
mirroring the source where every metadata field defaults to `None`.
Python `float` fields are embedded as `Rat`, `int` fields as `Int`,
`str` fields as `Str`. -/

/-- `CompositionMetadata`: plasma composition fractions (all optional). -/

structure CompositionMetadata where
  argon : Option Rat := none
  beryllium : Option Rat := none
  carbon : Option Rat := none
  deuterium : Option Rat := none
  deuterium_tritium : Option Rat := none
  helium_3 : Option Rat := none
  helium_4 : Option Rat := none
  hydrogen : Option Rat := none
  krypton : Option Rat := none
  neon : Option Rat := none
  nitrogen : Option Rat := none
  oxygen : Option Rat := none
  tritium : Option Rat := none
  tungsten : Option Rat := none
  xenon : Option Rat := none
  z_effective : Option Rat := none
deriving DecidableEq, Repr

/-- `IDSPropertiesMetadata`: IDS file properties and provenance. -/

structure IDSPropertiesMetadata where
  comment : Option Str := none
  creation_date : Option Str := none
  homogeneous_time : Option Int := none
  provider : Option Str := none
  version_put_data_dictionary : Option Str := none
  version_put_access_layer : Option Str := none
  version_put_access_layer_language : Option Str := none
  provenance_node_reference_name : Option Str := none
deriving DecidableEq, Repr

/-- `GlobalQuantitiesMetadata`: per-quantity source annotations. -/

structure GlobalQuantitiesMetadata where
  b0_source : Option Str := none
  beta_pol_source : Option Str := none
  beta_tor_source : Option Str := none
  beta_tor_norm_source : Option Str := none
  current_bootstrap_source : Option Str := none
  current_non_inductive_source : Option Str := none
  energy_diamagnetic_source : Option Str := none
  energy_thermal_source : Option Str := none
  h_factor_source : Option Str := none
  ip_source : Option Str := none
  li_source : Option Str := none
  power_radiated_inside_separatrix_source : Option Str := none
  power_radiated_total_source : Option Str := none
  q_95_source : Option Str := none
  r0_source : Option Str := none
  tau_energy_source : Option Str := none
  v_loop_source : Option Str := none
deriving DecidableEq, Repr

/-- `HeatingCurrentDriveMetadata`: heating and current drive scalars. -/

structure HeatingCurrentDriveMetadata where
  ec_0_power_source : Option Str := none
  ic_0_power_source : Option Str := none
  nbi_0_angle : Option Rat := none
  nbi_0_direction : Option Int := none
  nbi_0_power_source : Option Str := none
  nbi_0_voltage : Option Rat := none
  nbi_1_angle : Option Rat := none
  nbi_1_direction : Option Int := none
  nbi_1_power_source : Option Str := none
  nbi_1_voltage : Option Rat := none
  lh_0_power_source : Option Str := none
deriving DecidableEq, Repr

/-- `BoundaryMetadata`: plasma boundary source annotations. -/

structure BoundaryMetadata where
  strike_point_inner_r_source : Option Str := none
  strike_point_inner_z_source : Option Str := none
  strike_point_outer_r_source : Option Str := none
  strike_point_outer_z_source : Option Str := none
  type_source : Option Str := none
  x_point_source : Option Str := none
deriving DecidableEq, Repr

/-- `CodeMetadata`: extended code information. -/

structure CodeMetadata where
  commit : Option Str := none
  description : Option Str := none
  repository : Option Str := none
  library_0_commit : Option Str := none
  library_0_name : Option Str := none
  library_0_repository : Option Str := none
  library_0_version : Option Str := none
  library_1_commit : Option Str := none
  library_1_name : Option Str := none
  library_1_repository : Option Str := none
  library_1_version : Option Str := none
deriving DecidableEq, Repr

/-- `SimulationMetadata`: the structured metadata container. -/

structure SimulationMetadata where
  datetime : Option Str := none
  composition : Option CompositionMetadata := none
  ids_properties : Option IDSPropertiesMetadata := none
  global_quantities : Option GlobalQuantitiesMetadata := none
  heating_current_drive : Option HeatingCurrentDriveMetadata := none
  boundary : Option BoundaryMetadata := none
  code : Option CodeMetadata := none
  configuration_source : Option Str := none
  configuration_value : Option Str := none
deriving DecidableEq, Repr

/-! ## JSON-like payload values -/

/-- A JSON-like value as passed around by the SimDB client and pydantic
validators.  `null` embeds Python `None`; `num` embeds Python ints and
floats; `obj` embeds a `dict` as an insertion-ordered association list.
`meta` embeds an already-constructed `SimulationMetadata` model instance
stored inside a dict (the `transform_api_response` validator puts one under
the `"metadata"` key of its output). -/

inductive JVal where
  | null
  | bool (b : Bool)
  | num (q : Rat)
  | str (s : Str)
  | arr (xs : List JVal)
  | obj (kvs : List (Str × JVal))
  | meta (m : SimulationMetadata)
deriving Repr

/-- Python truthiness for the embedded values (`bool(v)`); a pydantic model
instance is truthy. -/

def JVal.truthy : JVal → Bool
  | .null => false
  | .bool b => b
  | .num q => q ≠ 0
  | .str s => s ≠ []
  | .arr xs => !xs.isEmpty
  | .obj kvs => !kvs.isEmpty
  | .meta _ => true

/-! ## Embedded dict operations

CPython dict semantics: key lookup finds the unique binding; assignment to an
existing key overwrites it in place (keeping its position), a new key is
appended at the end.  Keys are unique in every dict built here, so
overwriting the first matching binding is exact. -/

/-- Dict lookup (`d.get(k)` returning `none` when absent). -/

def dGet (d : PyDict JVal) (k : Str) : Option JVal :=
  match d with
  | [] => none
  | p :: t => if p.1 = k then some p.2 else dGet t k

/-- Dict membership (`k in d`). -/

def dHas (d : PyDict JVal) (k : Str) : Bool := (dGet d k).isSome

/-- Dict assignment `d[k] = v`. -/

def dSet (d : PyDict JVal) (k : Str) (v : JVal) : PyDict JVal :=
  match d with
  | [] => [(k, v)]
  | p :: t => if p.1 = k then (k, v) :: t else p :: dSet t k v

/-! ## pydantic field coercions

The lax coercions pydantic v2 applies to the field types occurring in these
models.  `Except.error` models a `ValidationError`. -/

/-- Is the embedded value Python `None`. -/

def JVal.isNull : JVal → Bool
  | .null => true
  | _ => false

/-- Coerce into an `Optional[str]` field: `None` stays `None`, a string is
accepted, anything else is rejected. -/

def coerceOptStr : Option JVal → Except Str (Option Str)
  | none => .ok none
  | some .null => .ok none
  | some (.str s) => .ok (some s)
  | some _ => .error "str expected".data

/-- Coerce into a required `str` field. -/

def coerceReqStr : Option JVal → Except Str Str
  | some (.str s) => .ok s
  | _ => .error "str required".data

/-- Coerce into an `Optional[float]` field: numbers pass, numeric strings are
parsed, booleans and everything else are rejected. -/

def coerceOptRat : Option JVal → Except Str (Option Rat)
  | none => .ok none
  | some .null => .ok none
  | some (.num q) => .ok (some q)
  | some (.str s) =>
    match pyFloatOfStr s with
    | some q => .ok (some q)
    | none => .error "float expected".data
  | some _ => .error "float expected".data

/-- Integer syntax accepted by pydantic for `int`-from-`str` coercion:
optional surrounding whitespace, optional sign, decimal digits. -/

def pydanticIntOfStr (s : Str) : Option Int :=
  match pyStripWs s with
  | [] => none
  | c :: rest =>
    if c = '+' then (if rest ≠ [] ∧ rest.all Char.isDigit then some (digitsVal rest) else none)
    else if c = '-' then
      (if rest ≠ [] ∧ rest.all Char.isDigit then some (-(digitsVal rest : Int)) else none)
    else if (c :: rest).all Char.isDigit then some (digitsVal (c :: rest)) else none

/-- Coerce into an `Optional[int]` field: integral numbers pass, integer
strings are parsed, fractional numbers, booleans and everything else are
rejected. -/

def coerceOptInt : Option JVal → Except Str (Option Int)
  | none => .ok none
  | some .null => .ok none
  | some (.num q) => if q.den = 1 then .ok (some q.num) else .error "int expected".data
  | some (.str s) =>
    match pydanticIntOfStr s with
    | some n => .ok (some n)
    | none => .error "int expected".data
  | some _ => .error "int expected".data

/-- Keyword-argument construction `CompositionMetadata(**d)`: unknown keys are ignored
(pydantic default `extra="ignore"`), known keys are coerced. -/

def mkComposition (d : PyDict JVal) : Except Str CompositionMetadata := do
  let argon ← coerceOptRat (dGet d "argon".data)
  let beryllium ← coerceOptRat (dGet d "beryllium".data)
  let carbon ← coerceOptRat (dGet d "carbon".data)
  let deuterium ← coerceOptRat (dGet d "deuterium".data)
  let deuterium_tritium ← coerceOptRat (dGet d "deuterium_tritium".data)
  let helium_3 ← coerceOptRat (dGet d "helium_3".data)
  let helium_4 ← coerceOptRat (dGet d "helium_4".data)
  let hydrogen ← coerceOptRat (dGet d "hydrogen".data)
  let krypton ← coerceOptRat (dGet d "krypton".data)
  let neon ← coerceOptRat (dGet d "neon".data)
  let nitrogen ← coerceOptRat (dGet d "nitrogen".data)
  let oxygen ← coerceOptRat (dGet d "oxygen".data)
  let tritium ← coerceOptRat (dGet d "tritium".data)
  let tungsten ← coerceOptRat (dGet d "tungsten".data)
  let xenon ← coerceOptRat (dGet d "xenon".data)
  let z_effective ← coerceOptRat (dGet d "z_effective".data)
  .ok ⟨argon, beryllium, carbon, deuterium, deuterium_tritium, helium_3, helium_4, hydrogen, krypton, neon, nitrogen, oxygen, tritium, tungsten, xenon, z_effective⟩

/-- Keyword-argument construction `IDSPropertiesMetadata(**d)`: unknown keys are ignored
(pydantic default `extra="ignore"`), known keys are coerced. -/

def mkIDSProperties (d : PyDict JVal) : Except Str IDSPropertiesMetadata := do
  let comment ← coerceOptStr (dGet d "comment".data)
  let creation_date ← coerceOptStr (dGet d "creation_date".data)
  let homogeneous_time ← coerceOptInt (dGet d "homogeneous_time".data)
  let provider ← coerceOptStr (dGet d "provider".data)
  let version_put_data_dictionary ← coerceOptStr (dGet d "version_put_data_dictionary".data)
  let version_put_access_layer ← coerceOptStr (dGet d "version_put_access_layer".data)
  let version_put_access_layer_language ← coerceOptStr (dGet d "version_put_access_layer_language".data)
  let provenance_node_reference_name ← coerceOptStr (dGet d "provenance_node_reference_name".data)
  .ok ⟨comment, creation_date, homogeneous_time, provider, version_put_data_dictionary, version_put_access_layer, version_put_access_layer_language, provenance_node_reference_name⟩

/-- Keyword-argument construction `GlobalQuantitiesMetadata(**d)`: unknown keys are ignored
(pydantic default `extra="ignore"`), known keys are coerced. -/

def mkGlobalQuantities (d : PyDict JVal) : Except Str GlobalQuantitiesMetadata := do
  let b0_source ← coerceOptStr (dGet d "b0_source".data)
  let beta_pol_source ← coerceOptStr (dGet d "beta_pol_source".data)
  let beta_tor_source ← coerceOptStr (dGet d "beta_tor_source".data)
  let beta_tor_norm_source ← coerceOptStr (dGet d "beta_tor_norm_source".data)
  let current_bootstrap_source ← coerceOptStr (dGet d "current_bootstrap_source".data)
  let current_non_inductive_source ← coerceOptStr (dGet d "current_non_inductive_source".data)
  let energy_diamagnetic_source ← coerceOptStr (dGet d "energy_diamagnetic_source".data)
  let energy_thermal_source ← coerceOptStr (dGet d "energy_thermal_source".data)
  let h_factor_source ← coerceOptStr (dGet d "h_factor_source".data)
  let ip_source ← coerceOptStr (dGet d "ip_source".data)
  let li_source ← coerceOptStr (dGet d "li_source".data)
  let power_radiated_inside_separatrix_source ← coerceOptStr (dGet d "power_radiated_inside_separatrix_source".data)
  let power_radiated_total_source ← coerceOptStr (dGet d "power_radiated_total_source".data)
  let q_95_source ← coerceOptStr (dGet d "q_95_source".data)
  let r0_source ← coerceOptStr (dGet d "r0_source".data)
  let tau_energy_source ← coerceOptStr (dGet d "tau_energy_source".data)
  let v_loop_source ← coerceOptStr (dGet d "v_loop_source".data)
  .ok ⟨b0_source, beta_pol_source, beta_tor_source, beta_tor_norm_source, current_bootstrap_source, current_non_inductive_source, energy_diamagnetic_source, energy_thermal_source, h_factor_source, ip_source, li_source, power_radiated_inside_separatrix_source, power_radiated_total_source, q_95_source, r0_source, tau_energy_source, v_loop_source⟩

/-- Keyword-argument construction `HeatingCurrentDriveMetadata(**d)`: unknown keys are ignored
(pydantic default `extra="ignore"`), known keys are coerced. -/

def mkHeatingCurrentDrive (d : PyDict JVal) : Except Str HeatingCurrentDriveMetadata := do
  let ec_0_power_source ← coerceOptStr (dGet d "ec_0_power_source".data)
  let ic_0_power_source ← coerceOptStr (dGet d "ic_0_power_source".data)
  let nbi_0_angle ← coerceOptRat (dGet d "nbi_0_angle".data)
  let nbi_0_direction ← coerceOptInt (dGet d "nbi_0_direction".data)
  let nbi_0_power_source ← coerceOptStr (dGet d "nbi_0_power_source".data)
  let nbi_0_voltage ← coerceOptRat (dGet d "nbi_0_voltage".data)
  let nbi_1_angle ← coerceOptRat (dGet d "nbi_1_angle".data)
  let nbi_1_direction ← coerceOptInt (dGet d "nbi_1_direction".data)
  let nbi_1_power_source ← coerceOptStr (dGet d "nbi_1_power_source".data)
  let nbi_1_voltage ← coerceOptRat (dGet d "nbi_1_voltage".data)
  let lh_0_power_source ← coerceOptStr (dGet d "lh_0_power_source".data)
  .ok ⟨ec_0_power_source, ic_0_power_source, nbi_0_angle, nbi_0_direction, nbi_0_power_source, nbi_0_voltage, nbi_1_angle, nbi_1_direction, nbi_1_power_source, nbi_1_voltage, lh_0_power_source⟩

/-- Keyword-argument construction `BoundaryMetadata(**d)`: unknown keys are ignored
(pydantic default `extra="ignore"`), known keys are coerced. -/

def mkBoundary (d : PyDict JVal) : Except Str BoundaryMetadata := do
  let strike_point_inner_r_source ← coerceOptStr (dGet d "strike_point_inner_r_source".data)
  let strike_point_inner_z_source ← coerceOptStr (dGet d "strike_point_inner_z_source".data)
  let strike_point_outer_r_source ← coerceOptStr (dGet d "strike_point_outer_r_source".data)
  let strike_point_outer_z_source ← coerceOptStr (dGet d "strike_point_outer_z_source".data)
  let type_source ← coerceOptStr (dGet d "type_source".data)
  let x_point_source ← coerceOptStr (dGet d "x_point_source".data)
  .ok ⟨strike_point_inner_r_source, strike_point_inner_z_source, strike_point_outer_r_source, strike_point_outer_z_source, type_source, x_point_source⟩

/-- Keyword-argument construction `CodeMetadata(**d)`: unknown keys are ignored
(pydantic default `extra="ignore"`), known keys are coerced. -/

def mkCodeMetadata (d : PyDict JVal) : Except Str CodeMetadata := do
  let commit ← coerceOptStr (dGet d "commit".data)
  let description ← coerceOptStr (dGet d "description".data)
  let repository ← coerceOptStr (dGet d "repository".data)
  let library_0_commit ← coerceOptStr (dGet d "library_0_commit".data)
  let library_0_name ← coerceOptStr (dGet d "library_0_name".data)
  let library_0_repository ← coerceOptStr (dGet d "library_0_repository".data)
  let library_0_version ← coerceOptStr (dGet d "library_0_version".data)
  let library_1_commit ← coerceOptStr (dGet d "library_1_commit".data)
  let library_1_name ← coerceOptStr (dGet d "library_1_name".data)
  let library_1_repository ← coerceOptStr (dGet d "library_1_repository".data)
  let library_1_version ← coerceOptStr (dGet d "library_1_version".data)
  .ok ⟨commit, description, repository, library_0_commit, library_0_name, library_0_repository, library_0_version, library_1_commit, library_1_name, library_1_repository, library_1_version⟩

/-! ## Metadata normalizer (`SimulationMetadata.from_metadata_dict`)

Each category is an independent pass over the flat metadata dict, exactly as
in the source. -/

/-- The `composition.<species>.value` pass: collect `{species: value}`. -/

def compositionData (md : PyDict JVal) : PyDict JVal :=
  md.foldl (fun acc kv =>
    if pyStartswith "composition.".data kv.1 ∧ pyEndswith ".value".data kv.1 then
      dSet acc ((pySplitc '.' kv.1).getD 1 []) kv.2
    else acc) []

/-- The `ids_properties.` pass: strip the prefix, then dots become
underscores (`str.replace` replaces every occurrence, as in Python). -/

def idsPropertiesData (md : PyDict JVal) : PyDict JVal :=
  md.foldl (fun acc kv =>
    if pyStartswith "ids_properties.".data kv.1 then
      dSet acc (pyReplace (pyReplace kv.1 "ids_properties.".data []) ".".data "_".data) kv.2
    else acc) []

/-- The `global_quantities.<param>.source` pass: collect
`{param_source: value}`. -/

def globalQuantitiesData (md : PyDict JVal) : PyDict JVal :=
  md.foldl (fun acc kv =>
    if pyStartswith "global_quantities.".data kv.1 ∧ pyEndswith ".source".data kv.1 then
      dSet acc (((pySplitc '.' kv.1).getD 1 []) ++ "_source".data) kv.2
    else acc) []

/-- The `heating_current_drive.` key prefix. -/

def hcdPrefix : Str := "heating_current_drive.".data

/-- The field name a `heating_current_drive.*` key is routed to, or `none`
when the key does not take part (no bracketed device segment).  After
splitting the prefix-stripped key on dots, the device and index come from the
first component, and the routing decision looks only at the second component
(`parts[1]`, defaulting to `"power"`): when it equals `"source"` the field is
`<device>_<index>_power_source`, otherwise `<device>_<index>_<parts[1]>`. -/

def heatingName (key : Str) : Option Str :=
  if pyStartswith hcdPrefix key then
    let parts := pySplitc '.' (pyReplace key hcdPrefix [])
    let p0 := parts.headD []
    if p0.contains '[' then
      let dev := (pySplitc '[' p0).headD []
      let idxPart := (pySplitc '[' p0).getD 1 []
      let idx := (pySplitc ']' idxPart).headD []
      let f := parts.getD 1 "power".data
      some (if f = "source".data then dev ++ "_".data ++ idx ++ "_power_source".data
            else dev ++ "_".data ++ idx ++ "_".data ++ f)
    else none
  else none

/-- The `heating_current_drive.` pass: route each key through `heatingName`. -/

def heatingData (md : PyDict JVal) : PyDict JVal :=
  md.foldl (fun acc kv =>
    match heatingName kv.1 with
    | some n => dSet acc n kv.2
    | none => acc) []

/-- The `boundary.<field...>.source` pass: strip the `boundary.` prefix,
delete every `.source` occurrence, dots become underscores, then append
`_source`. -/

def boundaryData (md : PyDict JVal) : PyDict JVal :=
  md.foldl (fun acc kv =>
    if pyStartswith "boundary.".data kv.1 ∧ pyEndswith ".source".data kv.1 then
      dSet acc
        ((pyReplace (pyReplace (pyReplace kv.1 "boundary.".data []) ".source".data [])
          ".".data "_".data) ++ "_source".data) kv.2
    else acc) []

/-- The `code.*` pass: every `code.` key other than `code.name` and
`code.version`, with brackets and dots normalised to underscores. -/

def codeData (md : PyDict JVal) : PyDict JVal :=
  md.foldl (fun acc kv =>
    if pyStartswith "code.".data kv.1 ∧ kv.1 ≠ "code.name".data ∧ kv.1 ≠ "code.version".data then
      dSet acc
        (pyReplace (pyReplace (pyReplace (pyReplace kv.1 "code.".data [])
          "[".data "_".data) "]".data []) ".".data "_".data) kv.2
    else acc) []

/-- A category sub-record is only constructed when its pass found at least
one key. -/

def buildCat {α : Type} (d : PyDict JVal) (mk : PyDict JVal → Except Str α) :
    Except Str (Option α) :=
  if d.isEmpty then .ok none else (mk d).map some

/-- `SimulationMetadata.from_metadata_dict`: parse the flat metadata dict
into the structured model.  A `ValidationError` raised by any sub-model
constructor is an `Except.error`. -/

def SimulationMetadata.from_metadata_dict (md : PyDict JVal) :
    Except Str SimulationMetadata := do
  let datetime ← coerceOptStr (dGet md "datetime".data)
  let composition ← buildCat (compositionData md) mkComposition
  let ids_properties ← buildCat (idsPropertiesData md) mkIDSProperties
  let global_quantities ← buildCat (globalQuantitiesData md) mkGlobalQuantities
  let heating_current_drive ← buildCat (heatingData md) mkHeatingCurrentDrive
  let boundary ← buildCat (boundaryData md) mkBoundary
  let code ← buildCat (codeData md) mkCodeMetadata
  let configuration_source ← coerceOptStr (dGet md "configuration.source".data)
  let configuration_value ← coerceOptStr (dGet md "configuration.value".data)
  .ok ⟨datetime, composition, ids_properties, global_quantities,
    heating_current_drive, boundary, code, configuration_source, configuration_value⟩

/-! ## API-response transformation (`SimulationSummary.transform_api_response`)

The `mode="before"` model validator.  It rebuilds the payload dict from
scratch; an exception anywhere inside it (including iterating a `metadata`
value that is not a list of dicts, or a metadata element name that is not a
string — both end in an `AttributeError`/`TypeError` in Python) is an
`Except.error`. -/

/-- One step of flattening the `metadata` array: entries with a falsy
element name or a `None` value are skipped; a dict entry whose element name
is a truthy non-string would make the downstream `key.startswith` calls of
`from_metadata_dict` raise in Python, embedded here as an immediate error;
a non-dict entry makes `item.get` raise. -/

def flattenMetaItem (md : PyDict JVal) (item : JVal) : Except Str (PyDict JVal) :=
  match item with
  | .obj ikvs =>
    let element := (dGet ikvs "element".data).getD (.str [])
    let value := (dGet ikvs "value".data).getD .null
    match element with
    | .str s => if s ≠ [] ∧ ¬value.isNull then .ok (dSet md s value) else .ok md
    | e =>
      if e.truthy ∧ ¬value.isNull then .error "metadata element is not a string".data
      else .ok md
  | _ => .error "metadata item is not a dict".data

/-- Flatten the `metadata` array into a dict.  In Python, a non-list value
here either fails to iterate (`None`, numbers) or yields items without
`.get` (strings, dicts, model instances), raising in every case. -/

def flattenMeta : JVal → Except Str (PyDict JVal)
  | .arr items => items.foldlM flattenMetaItem []
  | _ => .error "metadata is not a list of dicts".data

/-- Copy `data["datetime"]` into the flat dict when present (even when its
value is `None`). -/

def mergeDatetime (kvs md : PyDict JVal) : PyDict JVal :=
  if dHas kvs "datetime".data then dSet md "datetime".data ((dGet kvs "datetime".data).getD .null)
  else md

/-- The flat metadata dict the transformation derives from a payload that
has a `metadata` key: the flattened array plus the top-level `datetime`. -/

def mdOf (kvs : PyDict JVal) : Except Str (PyDict JVal) :=
  (flattenMeta ((dGet kvs "metadata".data).getD .null)).map (mergeDatetime kvs)

/-- Copy `t[key] = src[key]` when present in `src`. -/

def copyIf (src t : PyDict JVal) (key : Str) : PyDict JVal :=
  if dHas src key then dSet t key ((dGet src key).getD .null) else t

/-- Copy the non-metadata fields `uuid`, `alias`. -/

def copyBase (kvs : PyDict JVal) : PyDict JVal :=
  copyIf kvs (copyIf kvs [] "uuid".data) "alias".data

/-- Nested code info: `{"name": ..}` plus `version` when present. -/

def codeInfoOf (md : PyDict JVal) : PyDict JVal :=
  let ci := [("name".data, (dGet md "code.name".data).getD .null)]
  if dHas md "code.version".data then dSet ci "version".data ((dGet md "code.version".data).getD .null)
  else ci

/-- Set `t["code"]` from `code.name`/`code.version` when `code.name` exists. -/

def addCode (md t : PyDict JVal) : PyDict JVal :=
  if dHas md "code.name".data then dSet t "code".data (.obj (codeInfoOf md)) else t

/-- One entry of the API-field → model-field mapping. -/

def addField (md : PyDict JVal) (apiK modelK : Str) (t : PyDict JVal) : PyDict JVal :=
  if dHas md apiK then dSet t modelK ((dGet md apiK).getD .null) else t

/-- Attach the structured metadata model instance under `"metadata"`. -/

def addMeta (sm : SimulationMetadata) (t : PyDict JVal) : PyDict JVal :=
  dSet t "metadata".data (.meta sm)

/-- Preserve `inputs`/`outputs` verbatim when present. -/

def addInOut (kvs t : PyDict JVal) : PyDict JVal :=
  copyIf kvs (copyIf kvs t "inputs".data) "outputs".data

/-- Apply a default for a required field still missing. -/

def defaultIfMissing (t : PyDict JVal) (key : Str) (v : JVal) : PyDict JVal :=
  if dHas t key then t else dSet t key v

/-- The transformed dict built from the original payload `kvs`, the flat
metadata dict `md` and the structured metadata `sm`, following the source
line by line. -/

def buildT (kvs md : PyDict JVal) (sm : SimulationMetadata) : PyDict JVal :=
  let t := copyBase kvs
  let t := addField md "machine".data "machine".data t
  let t := addCode md t
  let t := addField md "status".data "status".data t
  let t := addField md "description".data "description".data t
  let t := addField md "uploaded_by".data "author_email".data t
  let t := addField md "ids".data "ids_types".data t
  let t := addMeta sm t
  let t := addInOut kvs t
  let t := defaultIfMissing t "machine".data (.str [])
  let t := defaultIfMissing t "code".data (.obj [("name".data, .str [])])
  let t := defaultIfMissing t "description".data (.str [])
  let t := defaultIfMissing t "status".data (.str "pending".data)
  t

/-- `SimulationSummary.transform_api_response` (`mode="before"` model
validator): non-dict data passes through; a dict without a `metadata` key
passes through; otherwise the payload is rebuilt around the flattened
metadata array. -/

def transform_api_response (data : JVal) : Except Str JVal :=
  match data with
  | .obj kvs =>
    if dHas kvs "metadata".data then do
      let md ← mdOf kvs
      let sm ← SimulationMetadata.from_metadata_dict md
      .ok (.obj (buildT kvs md sm))
    else .ok data
  | d => .ok d

/-! ## Typed records (`SimulationSummary`, `Simulation`, `DataObject`) -/

/-- The `status` literal: one of `passed`, `failed`, `pending`. -/

inductive Status where
  | passed
  | failed
  | pending
deriving DecidableEq, Repr

/-- The string of a `status` literal. -/

def Status.toStr : Status → Str
  | .passed => "passed".data
  | .failed => "failed".data
  | .pending => "pending".data

/-- `CodeInfo`: code name and optional version. -/

structure CodeInfoRec where
  name : Str
  version : Option Str
deriving DecidableEq, Repr

/-- The `DataObject.type` literal. -/

inductive ObjType where
  | FILE
  | IMAS
deriving DecidableEq, Repr

/-- `DataObject`: a file or IMAS data entry of a simulation. -/

structure DataObjectRec where
  uuid : Str
  uri : Str
  type : Option ObjType
  checksum : Option Str
  datetime : Option Str
deriving DecidableEq, Repr

/-- A validated `SimulationSummary`. -/

structure SummaryRec where
  uuid : Str
  «alias» : Str
  machine : Str
  code : CodeInfoRec
  description : Str
  status : Status
  author_email : Option Str
  ids_types : Option (List Str)
  metadata : Option SimulationMetadata
deriving DecidableEq, Repr

/-- A validated full `Simulation`. -/

structure SimulationRec where
  uuid : Str
  «alias» : Str
  machine : Str
  code : CodeInfoRec
  description : Str
  status : Status
  author_email : Option Str
  ids_types : Option (List Str)
  metadata : Option SimulationMetadata
  imas_uri : Str
  inputs : List DataObjectRec
  outputs : List DataObjectRec
deriving DecidableEq, Repr

/-! ## Field validation -/

/-- The `uuid` field: the `parse_uuid` before-validator unwraps an API
`{"_type": "uuid.UUID", "hex": ...}` dict, then a string is required. -/

def vUuid (o : Option JVal) : Except Str Str :=
  match o with
  | none => .error "uuid required".data
  | some v =>
    let v' := match v with
      | .obj ikvs => if dHas ikvs "hex".data then (dGet ikvs "hex".data).getD .null else .obj ikvs
      | w => w
    coerceReqStr (some v')

/-- The `status` field: `Literal["passed", "failed", "pending"]`. -/

def vStatus (o : Option JVal) : Except Str Status :=
  match o with
  | some (.str s) =>
    if s = "passed".data then .ok .passed
    else if s = "failed".data then .ok .failed
    else if s = "pending".data then .ok .pending
    else .error "status must be one of passed, failed, pending".data
  | _ => .error "status required".data

/-- `SimulationSummary.parse_ids_string` (before-validator on
`ids_types`): a string is stripped of leading/trailing bracket characters
and split on commas with per-element whitespace strip; an empty result
becomes `None`; non-strings pass through. -/

def parse_ids_string (value : JVal) : JVal :=
  match value with
  | .str s =>
    let v := pyStripChars "[]".data s
    if v ≠ [] then .arr ((pySplitc ',' v).map (fun e => .str (pyStripWs e))) else .null
  | v => v

/-- Coerce each element of a list value to `str`, left to right. -/

def coerceStrList : List JVal → Except Str (List Str)
  | [] => .ok []
  | x :: xs => do
    let s ← coerceReqStr (some x)
    let rest ← coerceStrList xs
    .ok (s :: rest)

/-- The `ids_types` field: before-validator then `list[str] | None`. -/

def vIdsTypes (o : Option JVal) : Except Str (Option (List Str)) :=
  match o with
  | none => .ok none
  | some v =>
    match parse_ids_string v with
    | .null => .ok none
    | .arr xs => (coerceStrList xs).map some
    | _ => .error "list of str expected".data

/-- The `code` field: a nested `CodeInfo` model from a dict. -/

def vCode (o : Option JVal) : Except Str CodeInfoRec :=
  match o with
  | some (.obj kvs) => do
    let name ← coerceReqStr (dGet kvs "name".data)
    let version ← coerceOptStr (dGet kvs "version".data)
    .ok ⟨name, version⟩
  | _ => .error "code info required".data

/-- A nested optional category sub-model built from a dict value. -/

def subCat {α : Type} (o : Option JVal) (mk : PyDict JVal → Except Str α) :
    Except Str (Option α) :=
  match o with
  | none => .ok none
  | some .null => .ok none
  | some (.obj kvs) => (mk kvs).map some
  | some _ => .error "dict expected".data

/-- `SimulationMetadata` validated from a plain dict (the path taken when a
serialized record is re-validated). -/

def metaFromObj (kvs : PyDict JVal) : Except Str SimulationMetadata := do
  let datetime ← coerceOptStr (dGet kvs "datetime".data)
  let composition ← subCat (dGet kvs "composition".data) mkComposition
  let ids_properties ← subCat (dGet kvs "ids_properties".data) mkIDSProperties
  let global_quantities ← subCat (dGet kvs "global_quantities".data) mkGlobalQuantities
  let heating_current_drive ← subCat (dGet kvs "heating_current_drive".data) mkHeatingCurrentDrive
  let boundary ← subCat (dGet kvs "boundary".data) mkBoundary
  let code ← subCat (dGet kvs "code".data) mkCodeMetadata
  let configuration_source ← coerceOptStr (dGet kvs "configuration_source".data)
  let configuration_value ← coerceOptStr (dGet kvs "configuration_value".data)
  .ok ⟨datetime, composition, ids_properties, global_quantities,
    heating_current_drive, boundary, code, configuration_source, configuration_value⟩

/-- The `metadata` field: `None`, an already-built model instance, or a
dict to validate. -/

def vMetadata (o : Option JVal) : Except Str (Option SimulationMetadata) :=
  match o with
  | none => .ok none
  | some .null => .ok none
  | some (.meta m) => .ok (some m)
  | some (.obj kvs) => (metaFromObj kvs).map some
  | some _ => .error "metadata must be a dict or None".data

/-- The `DataObject.type` field: `Literal["FILE", "IMAS"] | None`. -/

def vObjType (o : Option JVal) : Except Str (Option ObjType) :=
  match o with
  | none => .ok none
  | some .null => .ok none
  | some (.str s) =>
    if s = "FILE".data then .ok (some .FILE)
    else if s = "IMAS".data then .ok (some .IMAS)
    else .error "type must be FILE or IMAS".data
  | some _ => .error "type must be FILE or IMAS".data

/-- A `DataObject` validated from a dict (with its own `parse_uuid`
before-validator on `uuid`). -/

def vDataObject (v : JVal) : Except Str DataObjectRec :=
  match v with
  | .obj kvs => do
    let uuid ← vUuid (dGet kvs "uuid".data)
    let uri ← coerceReqStr (dGet kvs "uri".data)
    let type ← vObjType (dGet kvs "type".data)
    let checksum ← coerceOptStr (dGet kvs "checksum".data)
    let datetime ← coerceOptStr (dGet kvs "datetime".data)
    .ok ⟨uuid, uri, type, checksum, datetime⟩
  | _ => .error "data object must be a dict".data

/-- Validate each element of a list as a `DataObject`, left to right. -/

def vDataObjectList : List JVal → Except Str (List DataObjectRec)
  | [] => .ok []
  | x :: xs => do
    let o ← vDataObject x
    let rest ← vDataObjectList xs
    .ok (o :: rest)

/-- The `inputs`/`outputs` fields: `list[DataObject]` with default `[]`. -/

def vIOList (o : Option JVal) : Except Str (List DataObjectRec) :=
  match o with
  | none => .ok []
  | some (.arr xs) => vDataObjectList xs
  | some _ => .error "list of data objects expected".data

/-- The `imas_uri` field: `str` with default `""`. -/

def vImasUri (o : Option JVal) : Except Str Str :=
  match o with
  | none => .ok []
  | some (.str s) => .ok s
  | some _ => .error "str expected".data

/-- The `author_email` field: `str | None` with default `None`. -/

def vAuthorEmail (o : Option JVal) : Except Str (Option Str) := coerceOptStr o

/-- Field validation of `SimulationSummary` on the (possibly transformed)
payload. -/

def fieldValidateSummary (v : JVal) : Except Str SummaryRec :=
  match v with
  | .obj kvs => do
    let uuid ← vUuid (dGet kvs "uuid".data)
    let «alias» ← coerceReqStr (dGet kvs "alias".data)
    let machine ← coerceReqStr (dGet kvs "machine".data)
    let code ← vCode (dGet kvs "code".data)
    let description ← coerceReqStr (dGet kvs "description".data)
    let status ← vStatus (dGet kvs "status".data)
    let author_email ← vAuthorEmail (dGet kvs "author_email".data)
    let ids_types ← vIdsTypes (dGet kvs "ids_types".data)
    let metadata ← vMetadata (dGet kvs "metadata".data)
    .ok ⟨uuid, «alias», machine, code, description, status, author_email, ids_types, metadata⟩
  | _ => .error "input is not a dict".data

/-- `SimulationSummary.model_validate` (also `from_api_response`): the
before-validator then field validation. -/

def SimulationSummary.model_validate (data : JVal) : Except Str SummaryRec :=
  transform_api_response data >>= fieldValidateSummary

/-- Field validation of `Simulation` on the (possibly transformed)
payload. -/

def fieldValidateSimulation (v : JVal) : Except Str SimulationRec :=
  match v with
  | .obj kvs => do
    let uuid ← vUuid (dGet kvs "uuid".data)
    let «alias» ← coerceReqStr (dGet kvs "alias".data)
    let machine ← coerceReqStr (dGet kvs "machine".data)
    let code ← vCode (dGet kvs "code".data)
    let description ← coerceReqStr (dGet kvs "description".data)
    let status ← vStatus (dGet kvs "status".data)
    let author_email ← vAuthorEmail (dGet kvs "author_email".data)
    let ids_types ← vIdsTypes (dGet kvs "ids_types".data)
    let metadata ← vMetadata (dGet kvs "metadata".data)
    let imas_uri ← vImasUri (dGet kvs "imas_uri".data)
    let inputs ← vIOList (dGet kvs "inputs".data)
    let outputs ← vIOList (dGet kvs "outputs".data)
    .ok ⟨uuid, «alias», machine, code, description, status, author_email, ids_types, metadata,
      imas_uri, inputs, outputs⟩
  | _ => .error "input is not a dict".data

/-- `Simulation.extract_imas_uri` (`mode="after"` model validator): when
`imas_uri` is empty and `outputs` is non-empty, set it to the URI of the
first `IMAS`-typed output, if any. -/

def extract_imas_uri (r : SimulationRec) : SimulationRec :=
  if r.imas_uri = [] ∧ ¬r.outputs.isEmpty then
    match r.outputs.find? (fun o => decide (o.type = some ObjType.IMAS)) with
    | some o => { r with imas_uri := o.uri }
    | none => r
  else r

/-- `Simulation.model_validate` (also `from_api_response`): before-validator,
field validation, then the after-validator. -/

def Simulation.model_validate (data : JVal) : Except Str SimulationRec :=
  transform_api_response data >>= fieldValidateSimulation >>=
    fun r => .ok (extract_imas_uri r)

/-! ## Serialization (`model_dump` with `exclude_none=True`)

The round-trip property of the specification serializes a record back to a
payload dict; null fields are omitted so that optional fields reconstruct to
their defaults. -/

/-- A dump entry for an optional string field. -/

def entStr (k : Str) (o : Option Str) : PyDict JVal :=
  match o with
  | some s => [(k, .str s)]
  | none => []

/-- A dump entry for an optional numeric (float) field. -/

def entRat (k : Str) (o : Option Rat) : PyDict JVal :=
  match o with
  | some q => [(k, .num q)]
  | none => []

/-- A dump entry for an optional integer field. -/

def entInt (k : Str) (o : Option Int) : PyDict JVal :=
  match o with
  | some n => [(k, .num (n : Rat))]
  | none => []

/-- `CompositionMetadata.model_dump(exclude_none=True)`. -/

def CompositionMetadata.dumpEN (m : CompositionMetadata) : JVal :=
  .obj (
    entRat "argon".data m.argon ++
    entRat "beryllium".data m.beryllium ++
    entRat "carbon".data m.carbon ++
    entRat "deuterium".data m.deuterium ++
    entRat "deuterium_tritium".data m.deuterium_tritium ++
    entRat "helium_3".data m.helium_3 ++
    entRat "helium_4".data m.helium_4 ++
    entRat "hydrogen".data m.hydrogen ++
    entRat "krypton".data m.krypton ++
    entRat "neon".data m.neon ++
    entRat "nitrogen".data m.nitrogen ++
    entRat "oxygen".data m.oxygen ++
    entRat "tritium".data m.tritium ++
    entRat "tungsten".data m.tungsten ++
    entRat "xenon".data m.xenon ++
    entRat "z_effective".data m.z_effective)

/-- `IDSPropertiesMetadata.model_dump(exclude_none=True)`. -/

def IDSPropertiesMetadata.dumpEN (m : IDSPropertiesMetadata) : JVal :=
  .obj (
    entStr "comment".data m.comment ++
    entStr "creation_date".data m.creation_date ++
    entInt "homogeneous_time".data m.homogeneous_time ++
    entStr "provider".data m.provider ++
    entStr "version_put_data_dictionary".data m.version_put_data_dictionary ++
    entStr "version_put_access_layer".data m.version_put_access_layer ++
    entStr "version_put_access_layer_language".data m.version_put_access_layer_language ++
    entStr "provenance_node_reference_name".data m.provenance_node_reference_name)

/-- `GlobalQuantitiesMetadata.model_dump(exclude_none=True)`. -/

def GlobalQuantitiesMetadata.dumpEN (m : GlobalQuantitiesMetadata) : JVal :=
  .obj (
    entStr "b0_source".data m.b0_source ++
    entStr "beta_pol_source".data m.beta_pol_source ++
    entStr "beta_tor_source".data m.beta_tor_source ++
    entStr "beta_tor_norm_source".data m.beta_tor_norm_source ++
    entStr "current_bootstrap_source".data m.current_bootstrap_source ++
    entStr "current_non_inductive_source".data m.current_non_inductive_source ++
    entStr "energy_diamagnetic_source".data m.energy_diamagnetic_source ++
    entStr "energy_thermal_source".data m.energy_thermal_source ++
    entStr "h_factor_source".data m.h_factor_source ++
    entStr "ip_source".data m.ip_source ++
    entStr "li_source".data m.li_source ++
    entStr "power_radiated_inside_separatrix_source".data m.power_radiated_inside_separatrix_source ++
    entStr "power_radiated_total_source".data m.power_radiated_total_source ++
    entStr "q_95_source".data m.q_95_source ++
    entStr "r0_source".data m.r0_source ++
    entStr "tau_energy_source".data m.tau_energy_source ++
    entStr "v_loop_source".data m.v_loop_source)

/-- `HeatingCurrentDriveMetadata.model_dump(exclude_none=True)`. -/

def HeatingCurrentDriveMetadata.dumpEN (m : HeatingCurrentDriveMetadata) : JVal :=
  .obj (
    entStr "ec_0_power_source".data m.ec_0_power_source ++
    entStr "ic_0_power_source".data m.ic_0_power_source ++
    entRat "nbi_0_angle".data m.nbi_0_angle ++
    entInt "nbi_0_direction".data m.nbi_0_direction ++
    entStr "nbi_0_power_source".data m.nbi_0_power_source ++
    entRat "nbi_0_voltage".data m.nbi_0_voltage ++
    entRat "nbi_1_angle".data m.nbi_1_angle ++
    entInt "nbi_1_direction".data m.nbi_1_direction ++
    entStr "nbi_1_power_source".data m.nbi_1_power_source ++
    entRat "nbi_1_voltage".data m.nbi_1_voltage ++
    entStr "lh_0_power_source".data m.lh_0_power_source)

/-- `BoundaryMetadata.model_dump(exclude_none=True)`. -/

def BoundaryMetadata.dumpEN (m : BoundaryMetadata) : JVal :=
  .obj (
    entStr "strike_point_inner_r_source".data m.strike_point_inner_r_source ++
    entStr "strike_point_inner_z_source".data m.strike_point_inner_z_source ++
    entStr "strike_point_outer_r_source".data m.strike_point_outer_r_source ++
    entStr "strike_point_outer_z_source".data m.strike_point_outer_z_source ++
    entStr "type_source".data m.type_source ++
    entStr "x_point_source".data m.x_point_source)

/-- `CodeMetadata.model_dump(exclude_none=True)`. -/

def CodeMetadata.dumpEN (m : CodeMetadata) : JVal :=
  .obj (
    entStr "commit".data m.commit ++
    entStr "description".data m.description ++
    entStr "repository".data m.repository ++
    entStr "library_0_commit".data m.library_0_commit ++
    entStr "library_0_name".data m.library_0_name ++
    entStr "library_0_repository".data m.library_0_repository ++
    entStr "library_0_version".data m.library_0_version ++
    entStr "library_1_commit".data m.library_1_commit ++
    entStr "library_1_name".data m.library_1_name ++
    entStr "library_1_repository".data m.library_1_repository ++
    entStr "library_1_version".data m.library_1_version)

/-- A dump entry for an optional sub-model field. -/

def entSub {α : Type} (k : Str) (o : Option α) (d : α → JVal) : PyDict JVal :=
  match o with
  | some m => [(k, d m)]
  | none => []

/-- `SimulationMetadata.model_dump(exclude_none=True)`. -/

def SimulationMetadata.dumpEN (m : SimulationMetadata) : JVal :=
  .obj (entStr "datetime".data m.datetime ++
    entSub "composition".data m.composition CompositionMetadata.dumpEN ++
    entSub "ids_properties".data m.ids_properties IDSPropertiesMetadata.dumpEN ++
    entSub "global_quantities".data m.global_quantities GlobalQuantitiesMetadata.dumpEN ++
    entSub "heating_current_drive".data m.heating_current_drive HeatingCurrentDriveMetadata.dumpEN ++
    entSub "boundary".data m.boundary BoundaryMetadata.dumpEN ++
    entSub "code".data m.code CodeMetadata.dumpEN ++
    entStr "configuration_source".data m.configuration_source ++
    entStr "configuration_value".data m.configuration_value)

/-- `CodeInfo.model_dump(exclude_none=True)`. -/

def CodeInfoRec.dumpEN (c : CodeInfoRec) : JVal :=
  .obj ([("name".data, .str c.name)] ++ entStr "version".data c.version)

/-- `SimulationSummary.model_dump(exclude_none=True)`: required fields are
always emitted, optional null fields are omitted. -/

def SummaryRec.dumpEN (r : SummaryRec) : JVal :=
  .obj ([("uuid".data, .str r.uuid), ("alias".data, .str r.«alias»),
    ("machine".data, .str r.machine), ("code".data, r.code.dumpEN),
    ("description".data, .str r.description), ("status".data, .str r.status.toStr)] ++
    entStr "author_email".data r.author_email ++
    (match r.ids_types with
     | some xs => [("ids_types".data, .arr (xs.map JVal.str))]
     | none => []) ++
    entSub "metadata".data r.metadata SimulationMetadata.dumpEN)

/-! ## URI parsing (`ImasUri.parse`, `src/nucleai/simdb/models.py`)

`urllib.parse.urlparse` and `parse_qs` are embedded for the fragment of
their behaviour these URIs exercise: scheme/netloc/path/params/query/fragment
splitting, hostname/port extraction (an invalid port raises), and
query-string splitting with percent- and plus-decoding
(`keep_blank_values=False`, so blank values are dropped).  Percent-decoding
is byte-wise; multi-byte UTF-8 percent sequences are not reassembled. -/

/-- A character permitted in a URL scheme. -/

def schemeChar (c : Char) : Bool := c.isAlpha || c.isDigit || c = '+' || c = '-' || c = '.'

/-- The result of `urllib.parse.urlparse`. -/

structure UrlParseResult where
  scheme : Str
  netloc : Str
  path : Str
  params : Str
  query : Str
  fragment : Str
deriving DecidableEq, Repr

/-- Last index of `c` in `s`, if any (`str.rfind`). -/

def lastIdxOf (c : Char) (s : Str) : Option Nat :=
  match charIdx c s.reverse with
  | some i => some (s.length - 1 - i)
  | none => none

/-- `_splitparams`: split `;params` off the last path segment. -/

def splitParams (path : Str) : Str × Str :=
  if path.contains '/' then
    match lastIdxOf '/' path with
    | some j =>
      match (path.drop j).findIdx? (fun c => c = ';') with
      | some k => (path.take (j + k), path.drop (j + k + 1))
      | none => (path, [])
    | none => (path, [])
  else
    match charIdx ';' path with
    | some i => (path.take i, path.drop (i + 1))
    | none => (path, [])

/-- `_splitnetloc`: the netloc runs up to the first `/`, `?` or `#`. -/

def splitNetloc (after : Str) : Str × Str :=
  match after.findIdx? (fun c => c = '/' || c = '?' || c = '#') with
  | some i => (after.take i, after.drop i)
  | none => (after, [])

/-- `urllib.parse.urlparse`.  The `error` case models the `ValueError`
raised for a netloc with unbalanced square brackets. -/

def pyUrlparse (url : Str) : Except Str UrlParseResult :=
  let schemeRest : Str × Str :=
    match charIdx ':' url with
    | some i =>
      if 0 < i ∧ (url.headD ' ').isAlpha = true ∧ (url.take i).all schemeChar = true then
        ((url.take i).map Char.toLower, url.drop (i + 1))
      else ([], url)
    | none => ([], url)
  let scheme := schemeRest.1
  let rest0 := schemeRest.2
  let netlocRest : Str × Str :=
    if "//".data.isPrefixOf rest0 then splitNetloc (rest0.drop 2) else ([], rest0)
  let netloc := netlocRest.1
  if (netloc.contains '[' && !netloc.contains ']') ||
      (netloc.contains ']' && !netloc.contains '[') then
    .error "Invalid IPv6 URL".data
  else
    let rest1 := netlocRest.2
    let restFrag : Str × Str :=
      match charIdx '#' rest1 with
      | some i => (rest1.take i, rest1.drop (i + 1))
      | none => (rest1, [])
    let pathQuery : Str × Str :=
      match charIdx '?' restFrag.1 with
      | some i => (restFrag.1.take i, restFrag.1.drop (i + 1))
      | none => (restFrag.1, [])
    let pathParams : Str × Str :=
      if pathQuery.1.contains ';' then splitParams pathQuery.1 else (pathQuery.1, [])
    .ok ⟨scheme, netloc, pathParams.1, pathParams.2, pathQuery.2, restFrag.2⟩

/-- Hex digit value. -/

def hexVal (c : Char) : Nat :=
  if c.isDigit then c.toNat - '0'.toNat
  else if 'a' ≤ c ∧ c ≤ 'f' then c.toNat - 'a'.toNat + 10
  else c.toNat - 'A'.toNat + 10

/-- Is a hex digit. -/

def isHexDigit (c : Char) : Bool :=
  c.isDigit || ('a' ≤ c && c ≤ 'f') || ('A' ≤ c && c ≤ 'F')

/-- Percent-decoding (`unquote`), byte-wise; invalid sequences are kept
verbatim. -/

def pctDecode : Str → Str
  | [] => []
  | '%' :: a :: b :: rest =>
    if isHexDigit a ∧ isHexDigit b then Char.ofNat (hexVal a * 16 + hexVal b) :: pctDecode rest
    else '%' :: pctDecode (a :: b :: rest)
  | c :: rest => c :: pctDecode rest

/-- `unquote_plus`: plus signs become spaces, then percent-decode. -/

def unquotePlus (s : Str) : Str := pctDecode (s.map (fun c => if c = '+' then ' ' else c))

/-- `urllib.parse.parse_qsl` with default arguments: split on `&`, drop
empty chunks, drop chunks without `=` and chunks with a blank value. -/

def parseQsl (qs : Str) : List (Str × Str) :=
  (pySplitc '&' qs).filterMap (fun nv =>
    if nv = [] then none
    else
      match charIdx '=' nv with
      | none => none
      | some i =>
        let value := nv.drop (i + 1)
        if value ≠ [] then some (unquotePlus (nv.take i), unquotePlus value) else none)

/-- `parse_qs(query).get(k, [None])[0]`: the first value bound to `k`. -/

def qsGetFirst (pairs : List (Str × Str)) (k : Str) : Option Str :=
  (pairs.find? (fun p => p.1 = k)).map (·.2)

/-- `netloc.rpartition('@')[2]`: the host info after any userinfo. -/

def afterLastAt (s : Str) : Str :=
  match lastIdxOf '@' s with
  | some i => s.drop (i + 1)
  | none => s

/-- `_hostinfo` host/port split: bracketed IPv6 hosts keep their brackets'
interior; otherwise split at the first colon. -/

def hostPortOf (netloc : Str) : Str × Option Str :=
  let hostinfo := afterLastAt netloc
  match charIdx '[' hostinfo with
  | some i =>
    let bracketed := hostinfo.drop (i + 1)
    let host := bracketed.takeWhile (fun c => c ≠ ']')
    let afterBr := (bracketed.dropWhile (fun c => c ≠ ']')).drop 1
    let port := match charIdx ':' afterBr with
      | some j => afterBr.drop (j + 1)
      | none => []
    (host, if port = [] then none else some port)
  | none =>
    match charIdx ':' hostinfo with
    | some i =>
      let port := hostinfo.drop (i + 1)
      (hostinfo.take i, if port = [] then none else some port)
    | none => (hostinfo, none)

/-- `SplitResult.hostname`: lowercased, `None` when empty. -/

def pyHostname (netloc : Str) : Option Str :=
  let h := (hostPortOf netloc).1.map Char.toLower
  if h = [] then none else some h

/-- `SplitResult.port`: parsed with `int()`, must lie in `0..65535`;
anything else raises `ValueError`. -/

def pyPort (netloc : Str) : Except Str (Option Int) :=
  match (hostPortOf netloc).2 with
  | none => .ok none
  | some p =>
    match pyIntOfStr p with
    | some n => if 0 ≤ n ∧ n ≤ 65535 then .ok (some n) else .error "port out of range".data
    | none => .error "invalid port".data

/-- `ImasUri` (`src/nucleai/simdb/models.py`): the parsed URI record. -/

structure ImasUri where
  raw : Str
  backend : Str
  is_remote : Bool
  server : Option Str
  port : Option Int
  path : Option Str
  shot : Option Int
  run : Option Int
  database : Option Str
  user : Option Str
  version : Option Str
deriving DecidableEq, Repr

/-- `shot = int(shot) if shot else None` — a truthy value is converted with
`int()`, which raises on a malformed literal. -/

def convertNumField (o : Option Str) : Except Str (Option Int) :=
  match o with
  | none => .ok none
  | some s =>
    if s = [] then .ok none
    else
      match pyIntOfStr s with
      | some n => .ok (some n)
      | none => .error "invalid literal for int".data

/-- The query dict `ImasUri.parse` derives from a URI string. -/

def queryOf (parsed : UrlParseResult) : List (Str × Str) :=
  if parsed.query ≠ [] then parseQsl parsed.query else []

/-- `port = parsed.port if is_remote else None` — the `port` property of a
split result raises for an invalid port. -/

def portField (is_remote : Bool) (netloc : Str) : Except Str (Option Int) :=
  if is_remote then pyPort netloc else .ok none

/-- The body of `ImasUri.parse` after `urlparse` has produced its result.
`Except.error` models an uncaught exception (`ValueError`). -/

def ImasUri.parseWith (uri : Str) (parsed : UrlParseResult) : Except Str ImasUri := do
  let query := queryOf parsed
  let backend0 := qsGetFirst query "backend".data
  let backend1 : Option Str :=
    match backend0 with
    | some b =>
      if b = [] then
        (if parsed.path ≠ [] then some ((pySplitc '?' (pyLstrip "/".data parsed.path)).headD [])
         else some b)
      else some b
    | none =>
      if parsed.path ≠ [] then some ((pySplitc '?' (pyLstrip "/".data parsed.path)).headD [])
      else none
  let is_remote := parsed.netloc ≠ []
  let server := if is_remote then pyHostname parsed.netloc else none
  let port ← portField is_remote parsed.netloc
  let path := qsGetFirst query "path".data
  let shot ← convertNumField (qsGetFirst query "shot".data)
  let run ← convertNumField (qsGetFirst query "run".data)
  let database := qsGetFirst query "database".data
  let user := qsGetFirst query "user".data
  let version := qsGetFirst query "version".data
  let backend := match backend1 with
    | some b => if b ≠ [] then b else "unknown".data
    | none => "unknown".data
  .ok ⟨uri, backend, is_remote, server, port, path, shot, run, database, user, version⟩

/-- `ImasUri.parse`: parse an IMAS URI string into the structured record. -/

def ImasUri.parse (uri : Str) : Except Str ImasUri :=
  pyUrlparse uri >>= ImasUri.parseWith uri

/-- `ImasUri.__str__` returns the raw URI string unchanged. -/

def ImasUri.toStr (u : ImasUri) : Str := u.raw

/-- `ImasDataCollection`: lists of parsed input/output URIs. -/

structure ImasDataCollection where
  inputs : List ImasUri
  outputs : List ImasUri
deriving DecidableEq, Repr

/-- `ImasDataCollection.uri`: the first output, else the first input, else
`None`. -/

def ImasDataCollection.uri (c : ImasDataCollection) : Option ImasUri :=
  match c.outputs with
  | u :: _ => some u
  | [] =>
    match c.inputs with
    | u :: _ => some u
    | [] => none

/-- `ImasDataCollection.__bool__`: `bool(self.outputs or self.inputs)`. -/

def ImasDataCollection.toBool (c : ImasDataCollection) : Bool :=
  !c.outputs.isEmpty || !c.inputs.isEmpty

/-! ## The core access-URI model (spec-modelled)

`nucleai.core.models.ImasUri` is imported by `tests/test_imas/test_uri.py`
and by `nucleai/imas/loader.py`, but the class itself is not present under
`src/`; it is modelled here from the specification (§4.1). -/

/-- Modelled from the spec: the parsed representation produced by
`nucleai.core.models.ImasUri.from_string` (§3 "Access URI"), whose class is
missing from `src/`. -/

structure CoreImasUri where
  original : Str
  backend : Str
  is_remote : Bool
  server : Option Str
  port : Option Int
  path : Option Str
  shot : Option Int
  run : Option Int
  database : Option Str
  user : Option Str
  version : Option Str
deriving DecidableEq, Repr

/-- Modelled from the spec: the filesystem-stat capability consumed by the
local-existence check (§6): file existence, and whether a directory contains
at least one file with a given extension. -/

structure FileSystem where
  fileExists : Str → Bool
  dirHasExt : Str → Str → Bool

/-- The locator's reserved scheme prefix (`imas:`). -/

def imasSchemePrefix : Str := "imas:".data

/-- Modelled from the spec: `nucleai.core.models.ImasUri.from_string`
(§4.1 parsing steps 1–4; the class is missing from `src/`).  A string not
beginning with the reserved scheme prefix is a bare filesystem path with the
backend inferred from the extension; otherwise the string is parsed as a
URI: authority presence means remote, the backend comes from the `backend`
query parameter or the first path segment, legacy integer fields parse
softly (malformed or absent means null), and the backend defaults to
`unknown`.  Parsing never raises (§4.1 failure modes); the unreachable
bracket-error branch of the embedded `urlparse` degrades to defaults. -/

def CoreImasUri.from_string (s : Str) : CoreImasUri :=
  if ¬ pyStartswith imasSchemePrefix s then
    ⟨s, (if pyEndswith ".nc".data s then "netcdf".data else "hdf5".data),
      false, none, none, some s, none, none, none, none, none⟩
  else
    match pyUrlparse s with
    | .error _ =>
      ⟨s, "unknown".data, false, none, none, none, none, none, none, none, none⟩
    | .ok parsed =>
      let query := queryOf parsed
      let backend : Str :=
        match qsGetFirst query "backend".data with
        | some b => if b ≠ [] then b else "unknown".data
        | none =>
          let seg := (pySplitc '/' (pyLstrip "/".data parsed.path)).headD []
          if seg ≠ [] then seg else "unknown".data
      let is_remote := parsed.netloc ≠ []
      ⟨s, backend, is_remote,
        (if is_remote then pyHostname parsed.netloc else none),
        (if is_remote then
          (match (hostPortOf parsed.netloc).2 with
           | some p => pyIntOfStr p
           | none => none)
         else none),
        qsGetFirst query "path".data,
        (qsGetFirst query "shot".data).bind pyIntOfStr,
        (qsGetFirst query "run".data).bind pyIntOfStr,
        qsGetFirst query "database".data,
        qsGetFirst query "user".data,
        qsGetFirst query "version".data⟩

/-- Modelled from the spec: `can_convert_to_local` (§4.1): false unless
remote with a non-null path; then a backend-specific existence check —
`hdf5`: `master.h5` directly under the path; `netcdf`: the path itself when
it ends in `.nc`, else any `*.nc` under it; `ascii`: any `*.ids` under it;
anything else: false. -/

def CoreImasUri.can_convert_to_local (fs : FileSystem) (u : CoreImasUri) : Bool :=
  u.is_remote &&
    match u.path with
    | none => false
    | some p =>
      if u.backend = "hdf5".data then fs.fileExists (p ++ "/master.h5".data)
      else if u.backend = "netcdf".data then
        (if pyEndswith ".nc".data p then fs.fileExists p else fs.dirHasExt p ".nc".data)
      else if u.backend = "ascii".data then fs.dirHasExt p ".ids".data
      else false

/-- The short local URI form `imas:{backend}?path={path}`. -/

def CoreImasUri.localForm (u : CoreImasUri) : Str :=
  "imas:".data ++ u.backend ++ "?path=".data ++ u.path.getD []

/-- Modelled from the spec: `to_local` (§4.1): the local form when
convertible, otherwise the original string unchanged. -/

def CoreImasUri.to_local (fs : FileSystem) (u : CoreImasUri) : Str :=
  if u.can_convert_to_local fs then u.localForm else u.original

/-- Modelled from the spec: the default string rendering `__str__` (§4.1):
the local form when remote and convertible, otherwise the original string
verbatim. -/

def CoreImasUri.strRender (fs : FileSystem) (u : CoreImasUri) : Str :=
  if u.is_remote && u.can_convert_to_local fs then u.localForm else u.original

/-- A concrete parsed URI used by witnesses. -/

def uriW : ImasUri :=
  ⟨"imas:hdf5?path=/w".data, "hdf5".data, false, none, none, some "/w".data,
    none, none, none, none, none⟩

/-- A filesystem on which every existence check succeeds. -/

def fsAll : FileSystem := ⟨fun _ => true, fun _ _ => true⟩

/-- A filesystem on which every existence check fails. -/

def fsNone : FileSystem := ⟨fun _ => false, fun _ _ => false⟩

/-- The chain of dict-building steps between `copyBase` and the defaults. -/

def preDefaults (kvs md : PyDict JVal) (sm : SimulationMetadata) : PyDict JVal :=
  addInOut kvs (addMeta sm (addField md "ids".data "ids_types".data
    (addField md "uploaded_by".data "author_email".data
      (addField md "description".data "description".data
        (addField md "status".data "status".data
          (addCode md (addField md "machine".data "machine".data (copyBase kvs))))))))

/-- The specification's algorithm for the `ids` string read literally:
strip at most one leading/trailing bracket pair, then split on commas with
per-element whitespace trimming; an empty result is null. -/

def idsClaimStripOnePair (s : Str) : Str :=
  if pyStartswith "[".data s ∧ pyEndswith "]".data s ∧ 2 ≤ s.length then
    (s.drop 1).dropLast
  else s

/-- The claim's parse: one bracket pair stripped, then split and trim. -/

def idsClaimParse (s : Str) : JVal :=
  let v := idsClaimStripOnePair s
  if v ≠ [] then .arr ((pySplitc ',' v).map (fun e => .str (pyStripWs e))) else .null

/-- A concrete direct-construction payload carrying an `ids_types` string. -/

def kvsC8 : PyDict JVal := [
  ("uuid".data, .str "u".data), ("alias".data, .str "a".data),
  ("machine".data, .str "m".data),
  ("code".data, .obj [("name".data, .str "c".data)]),
  ("description".data, .str "d".data),
  ("status".data, .str "passed".data),
  ("ids_types".data, .str "[core_profiles, equilibrium]".data)]

/-- The record `kvsC8` validates to. -/

def recC8 : SummaryRec :=
  ⟨"u".data, "a".data, "m".data, ⟨"c".data, none⟩, "d".data, .passed, none,
    some ["core_profiles".data, "equilibrium".data], none⟩

/-- A pass-through payload with a preset `imas_uri` used by the C9 witness
and the C4 counterexample. -/

def p4 : JVal := .obj [
  ("uuid".data, .str "u".data), ("alias".data, .str "a".data),
  ("machine".data, .str "M".data),
  ("code".data, .obj [("name".data, .str "c".data)]),
  ("description".data, .str "d".data),
  ("status".data, .str "passed".data),
  ("imas_uri".data, .str "preset".data),
  ("outputs".data, .arr [
    .obj [("uuid".data, .str "f1".data), ("uri".data, .str "file:///x".data),
      ("type".data, .str "FILE".data)],
    .obj [("uuid".data, .str "i1".data), ("uri".data, .str "other".data),
      ("type".data, .str "IMAS".data)]])]

/-- The record `p4` validates to: the preset `imas_uri` survives. -/

def r4 : SimulationRec :=
  ⟨"u".data, "a".data, "M".data, ⟨"c".data, none⟩, "d".data, .passed, none, none, none,
    "preset".data, [],
    [⟨"f1".data, "file:///x".data, some .FILE, none, none⟩,
     ⟨"i1".data, "other".data, some .IMAS, none, none⟩]⟩

/-- A payload like `p4` but without the preset `imas_uri`. -/

def p4b : JVal := .obj [
  ("uuid".data, .str "u".data), ("alias".data, .str "a".data),
  ("machine".data, .str "M".data),
  ("code".data, .obj [("name".data, .str "c".data)]),
  ("description".data, .str "d".data),
  ("status".data, .str "passed".data),
  ("outputs".data, .arr [
    .obj [("uuid".data, .str "f1".data), ("uri".data, .str "file:///x".data),
      ("type".data, .str "FILE".data)],
    .obj [("uuid".data, .str "i1".data), ("uri".data, .str "other".data),
      ("type".data, .str "IMAS".data)]])]

/-- The record `p4b` validates to: `imas_uri` is derived from the first
`IMAS` output, skipping the earlier `FILE` entry. -/

def r4b : SimulationRec :=
  ⟨"u".data, "a".data, "M".data, ⟨"c".data, none⟩, "d".data, .passed, none, none, none,
    "other".data, [],
    [⟨"f1".data, "file:///x".data, some .FILE, none, none⟩,
     ⟨"i1".data, "other".data, some .IMAS, none, none⟩]⟩

/-! ## C3 — (non-)idempotence of the API-response transformation -/

/-- An API payload with a `metadata` array, for the C3 counterexample. -/

def p3 : JVal := .obj [
  ("uuid".data, .str "u".data), ("alias".data, .str "a".data),
  ("metadata".data, .arr [
    .obj [("element".data, .str "machine".data), ("value".data, .str "ITER".data)]])]

/-- The transformation's output on `p3`: note it carries a `metadata` key
holding the structured-metadata model instance. -/

def t3 : JVal := .obj [
  ("uuid".data, .str "u".data), ("alias".data, .str "a".data),
  ("machine".data, .str "ITER".data),
  ("metadata".data, .meta ⟨none, none, none, none, none, none, none, none, none⟩),
  ("code".data, .obj [("name".data, .str [])]),
  ("description".data, .str []),
  ("status".data, .str "pending".data)]

/-- A metadata-free payload used by the C3 witness. -/

def p3free : JVal := .obj [("uuid".data, .str "u".data), ("alias".data, .str "a".data)]

/-- The payload of the C1 counterexample: its metadata array carries the
unrecognized status value `"unknown"`. -/

def pBadStatus : JVal := .obj [
  ("uuid".data, .str "u".data), ("alias".data, .str "a".data),
  ("metadata".data, .arr [
    .obj [("element".data, .str "status".data), ("value".data, .str "unknown".data)]])]

theorem dGet_dSet_self (d : PyDict JVal) (k : Str) (v : JVal) :
    dGet (dSet d k v) k = some v := by
  induction d with
  | nil => simp [dGet, dSet]
  | cons p t ih =>
    by_cases hp : p.1 = k
    · simp [dGet, dSet, hp]
    · simp [dGet, dSet, hp, ih]

theorem dGet_dSet_ne (d : PyDict JVal) (k k' : Str) (v : JVal) (h : k' ≠ k) :
    dGet (dSet d k v) k' = dGet d k' := by
  have hk : ¬(k = k') := fun hkk => h hkk.symm
  induction d with
  | nil => simp [dGet, dSet, hk]
  | cons p t ih =>
    unfold dSet
    by_cases hp : p.1 = k
    · rw [if_pos hp]
      unfold dGet
      rw [if_neg hk, if_neg (hp ▸ hk)]
    · rw [if_neg hp]
      unfold dGet
      by_cases hq : p.1 = k'
      · rw [if_pos hq, if_pos hq]
      · rw [if_neg hq, if_neg hq]
        exact ih

theorem dHas_of_dGet_eq_some {d : PyDict JVal} {k : Str} {v : JVal}
    (h : dGet d k = some v) : dHas d k = true := by
  unfold dHas
  rw [h]
  rfl

theorem dGet_none_of_dHas_false {d : PyDict JVal} {k : Str}
    (h : dHas d k = false) : dGet d k = none := by
  unfold dHas at h
  cases hg : dGet d k with
  | none => rfl
  | some v => rw [hg] at h; simp at h

theorem dHas_dSet_ne (d : PyDict JVal) (k k' : Str) (v : JVal) (h : k' ≠ k) :
    dHas (dSet d k v) k' = dHas d k' := by
  unfold dHas
  rw [dGet_dSet_ne d k k' v h]

/-! ## General helper lemmas -/

theorem exceptBind_ok {α β : Type} {x : Except Str α} {f : α → Except Str β} {r : β}
    (h : x >>= f = .ok r) : ∃ a, x = .ok a ∧ f a = .ok r := by
  cases x with
  | error e => simp [Bind.bind, Except.bind] at h
  | ok a => exact ⟨a, rfl, by simpa [Bind.bind, Except.bind] using h⟩

theorem except_ok_of_isOk {α : Type} {x : Except Str α} (h : x.isOk = true) :
    ∃ a, x = .ok a := by
  cases x with
  | error e => simp [Except.isOk, Except.toBool] at h
  | ok a => exact ⟨a, rfl⟩

/-! ## C10 — `ImasDataCollection.uri` and truth value -/

/-- C10: for every `ImasDataCollection`, the `uri` property returns the
first element of `outputs` when `outputs` is non-empty, otherwise the first
element of `inputs` when `inputs` is non-empty, otherwise `None`; and the
collection's truth value is true exactly when at least one of the two lists
is non-empty. -/

theorem imasDataCollection_uri_bool_spec (c : ImasDataCollection) :
    (c.outputs ≠ [] → c.uri = c.outputs.head?) ∧
    (c.outputs = [] → c.inputs ≠ [] → c.uri = c.inputs.head?) ∧
    (c.outputs = [] → c.inputs = [] → c.uri = none) ∧
    (c.toBool = true ↔ (c.outputs ≠ [] ∨ c.inputs ≠ [])) := by
  obtain ⟨ins, outs⟩ := c
  refine ⟨?_, ?_, ?_, ?_⟩ <;>
    cases outs <;> cases ins <;>
      simp [ImasDataCollection.uri, ImasDataCollection.toBool]

/-- Witness for C10 at concrete collections with and without outputs. -/

theorem imasDataCollection_uri_bool_spec_witness :
    (ImasDataCollection.uri ⟨[], [uriW]⟩ = some uriW ∧
      ImasDataCollection.toBool ⟨[], [uriW]⟩ = true) ∧
    (ImasDataCollection.uri ⟨[uriW], []⟩ = some uriW) ∧
    (ImasDataCollection.uri ⟨[], []⟩ = none) := by
  refine ⟨⟨?_, ?_⟩, ?_, ?_⟩
  · exact ((imasDataCollection_uri_bool_spec ⟨[], [uriW]⟩).1 (by decide)).trans rfl
  · exact ((imasDataCollection_uri_bool_spec ⟨[], [uriW]⟩).2.2.2).2 (Or.inl (by decide))
  · exact ((imasDataCollection_uri_bool_spec ⟨[uriW], []⟩).2.1 rfl (by decide)).trans rfl
  · exact (imasDataCollection_uri_bool_spec ⟨[], []⟩).2.2.1 rfl rfl

/-! ## C2 — default string rendering of the core URI (spec-modelled) -/

/-- C2: for every remote URI with backend `hdf5` and a non-null path whose
directory contains `master.h5`, the default string rendering is exactly the
local form `imas:hdf5?path={path}` (no authority component appears: the
rendered string is built from the backend and path alone); for every URI
that is not both remote and locally convertible, the rendering returns the
original string verbatim.  (Spec-modelled: `nucleai.core.models.ImasUri` is
not present under `src/`.) -/

theorem coreUri_strRender_spec :
    (∀ (fs : FileSystem) (u : CoreImasUri) (p : Str),
      u.is_remote = true → u.backend = "hdf5".data → u.path = some p →
      fs.fileExists (p ++ "/master.h5".data) = true →
      u.strRender fs = "imas:hdf5?path=".data ++ p) ∧
    (∀ (fs : FileSystem) (u : CoreImasUri),
      ¬(u.is_remote = true ∧ u.can_convert_to_local fs = true) →
      u.strRender fs = u.original) := by
  constructor
  · intro fs u p hrem hb hp hfs
    have hc : u.can_convert_to_local fs = true := by
      unfold CoreImasUri.can_convert_to_local
      rw [hrem, hp]
      simp [hb, hfs]
    unfold CoreImasUri.strRender
    rw [hrem, hc]
    unfold CoreImasUri.localForm
    rw [hb, hp]
    simp
  · intro fs u h
    unfold CoreImasUri.strRender
    rcases hrem : u.is_remote with _ | _
    · simp
    · rcases hc : u.can_convert_to_local fs with _ | _
      · simp
      · exact absurd ⟨hrem, hc⟩ h

/-- Witness for C2: a concrete remote hdf5 URI renders to the local form
when `master.h5` exists, and a non-convertible URI renders to the original
string. -/

theorem coreUri_strRender_spec_witness :
    CoreImasUri.strRender fsAll
      (CoreImasUri.from_string
        "imas://uda.iter.org/uda?path=/data&backend=hdf5".data) =
      "imas:hdf5?path=/data".data ∧
    CoreImasUri.strRender fsNone
      (CoreImasUri.from_string
        "imas://uda.iter.org/uda?path=/data&backend=hdf5".data) =
      "imas://uda.iter.org/uda?path=/data&backend=hdf5".data := by
  constructor
  · exact (coreUri_strRender_spec.1 fsAll
      (CoreImasUri.from_string "imas://uda.iter.org/uda?path=/data&backend=hdf5".data)
      "/data".data (by decide) (by decide) (by decide) rfl).trans (by decide)
  · exact (coreUri_strRender_spec.2 fsNone
      (CoreImasUri.from_string "imas://uda.iter.org/uda?path=/data&backend=hdf5".data)
      (by decide)).trans (by decide)

/-! ## C7 — bare filesystem paths in the core URI parser (spec-modelled) -/

/-- C7: every input string that does not begin with the reserved scheme
prefix is treated as a local filesystem path: the inferred backend is
`netcdf` when the string ends in `.nc` and `hdf5` otherwise, `is_remote` is
false, and the parsed `path` field holds the given path.  (Spec-modelled:
`nucleai.core.models.ImasUri.from_string` is not present under `src/`.) -/

theorem coreUri_from_string_bare_path (s : Str)
    (h : pyStartswith imasSchemePrefix s = false) :
    (CoreImasUri.from_string s).backend =
      (if pyEndswith ".nc".data s then "netcdf".data else "hdf5".data) ∧
    (CoreImasUri.from_string s).is_remote = false ∧
    (CoreImasUri.from_string s).path = some s := by
  unfold CoreImasUri.from_string
  rw [if_pos (by simp [h])]
  exact ⟨rfl, rfl, rfl⟩

/-- Witness for C7 at a `.nc` path and a plain directory path. -/

theorem coreUri_from_string_bare_path_witness :
    (CoreImasUri.from_string "/work/imas/data/simulation.nc".data).backend =
      "netcdf".data ∧
    (CoreImasUri.from_string "/some/dir".data).backend = "hdf5".data ∧
    (CoreImasUri.from_string "/some/dir".data).is_remote = false ∧
    (CoreImasUri.from_string "/some/dir".data).path = some "/some/dir".data := by
  have h1 := coreUri_from_string_bare_path "/work/imas/data/simulation.nc".data (by decide)
  have h2 := coreUri_from_string_bare_path "/some/dir".data (by decide)
  exact ⟨h1.1.trans (by decide), h2.1.trans (by decide), h2.2.1, h2.2.2⟩

/-! ## C5 — legacy `shot`/`run` query parameters -/

/-- C5 counterexample: for the URI `imas:?shot=abc&backend=hdf5`, whose
`shot` query parameter is present but not a well-formed integer, parsing
raises (`int("abc")` raises `ValueError`) instead of yielding the field as
null, contradicting the claim that parsing never raises there. -/

theorem imasUri_parse_malformed_shot_counterexample :
    (ImasUri.parse "imas:?shot=abc&backend=hdf5".data).isOk = false := by decide

/-- C5 (amended): absent `shot`/`run` parameters yield null fields, but a
present malformed (non-integer, necessarily non-blank) value makes parsing
raise `ValueError` — the `if shot` guard only covers falsy values, not
malformed ones. -/

theorem convertNumField_malformed {v : Str} (hv : v ≠ []) (hint : pyIntOfStr v = none) :
    convertNumField (some v) = .error "invalid literal for int".data := by
  have h1 : convertNumField (some v) =
      (if v = [] then Except.ok none else
        match pyIntOfStr v with
        | some n => Except.ok (some n)
        | none => Except.error "invalid literal for int".data) := rfl
  rw [h1, if_neg hv, hint]

theorem imasUri_parse_legacy_int_fields :
    (∀ (uri : Str) (parsed : UrlParseResult) (r : ImasUri),
      pyUrlparse uri = .ok parsed →
      qsGetFirst (queryOf parsed) "shot".data = none →
      qsGetFirst (queryOf parsed) "run".data = none →
      ImasUri.parse uri = .ok r → r.shot = none ∧ r.run = none) ∧
    (∀ (uri : Str) (parsed : UrlParseResult) (v : Str),
      pyUrlparse uri = .ok parsed →
      (qsGetFirst (queryOf parsed) "shot".data = some v ∨
        qsGetFirst (queryOf parsed) "run".data = some v) →
      v ≠ [] → pyIntOfStr v = none →
      (ImasUri.parse uri).isOk = false) := by
  constructor
  · intro uri parsed r hup hshot hrun hok
    unfold ImasUri.parse at hok
    rw [hup] at hok
    simp only [Bind.bind, Except.bind] at hok
    unfold ImasUri.parseWith at hok
    simp only [] at hok
    obtain ⟨port, hport, hok⟩ := exceptBind_ok hok
    rw [hshot] at hok
    simp only [convertNumField, Bind.bind, Except.bind] at hok
    rw [hrun] at hok
    simp only [convertNumField, Bind.bind, Except.bind] at hok
    cases hok
    exact ⟨rfl, rfl⟩
  · intro uri parsed v hup hsome hv hint
    cases hok : (ImasUri.parse uri).isOk with
    | false => rfl
    | true =>
      exfalso
      obtain ⟨r, hr⟩ := except_ok_of_isOk hok
      unfold ImasUri.parse at hr
      rw [hup] at hr
      simp only [Bind.bind, Except.bind] at hr
      unfold ImasUri.parseWith at hr
      simp only [] at hr
      obtain ⟨port, hport, hr⟩ := exceptBind_ok hr
      obtain ⟨shot, hshot, hr⟩ := exceptBind_ok hr
      obtain ⟨run, hrunv, hr⟩ := exceptBind_ok hr
      cases hsome with
      | inl h =>
        rw [h, convertNumField_malformed hv hint] at hshot
        cases hshot
      | inr h =>
        rw [h, convertNumField_malformed hv hint] at hrunv
        cases hrunv

/-- Witness for C5 (amended): both conjuncts at concrete URIs — a legacy
URI without `shot`/`run` parses with null fields, and `run=xyz` makes
parsing fail. -/

theorem imasUri_parse_legacy_int_fields_witness :
    ((ImasUri.parse "imas:hdf5?path=/w".data).isOk = true) ∧
    (∀ r, ImasUri.parse "imas:hdf5?path=/w".data = .ok r →
      r.shot = none ∧ r.run = none) ∧
    (ImasUri.parse "imas:?run=xyz&backend=hdf5".data).isOk = false := by
  refine ⟨by decide, ?_, ?_⟩
  · intro r hr
    exact imasUri_parse_legacy_int_fields.1 "imas:hdf5?path=/w".data
      ⟨"imas".data, [], "hdf5".data, [], "path=/w".data, []⟩ r rfl
      (by decide) (by decide) hr
  · exact imasUri_parse_legacy_int_fields.2 "imas:?run=xyz&backend=hdf5".data
      ⟨"imas".data, [], [], [], "run=xyz&backend=hdf5".data, []⟩ "xyz".data
      rfl (Or.inr (by decide)) (by decide) (by decide)

/-! ## Destructuring lemmas for the validation pipeline -/

theorem transform_pass_through {kvs : PyDict JVal}
    (h : dHas kvs "metadata".data = false) :
    transform_api_response (.obj kvs) = .ok (.obj kvs) := by
  simp only [transform_api_response]
  rw [if_neg (by simp [h])]

theorem transform_non_obj (v : JVal) (h : ∀ kvs, v ≠ .obj kvs) :
    transform_api_response v = .ok v := by
  unfold transform_api_response
  cases v with
  | obj kvs => exact absurd rfl (h kvs)
  | _ => rfl

theorem transform_ok_with_metadata {kvs : PyDict JVal} {t : JVal}
    (hmeta : dHas kvs "metadata".data = true)
    (h : transform_api_response (.obj kvs) = .ok t) :
    ∃ md sm, mdOf kvs = .ok md ∧ SimulationMetadata.from_metadata_dict md = .ok sm ∧
      t = .obj (buildT kvs md sm) := by
  simp only [transform_api_response] at h
  rw [if_pos hmeta] at h
  obtain ⟨md, hmd, h⟩ := exceptBind_ok h
  obtain ⟨sm, hsm, h⟩ := exceptBind_ok h
  cases h
  exact ⟨md, sm, hmd, hsm, rfl⟩

theorem fvSummary_ok_fields {kvs : PyDict JVal} {r : SummaryRec}
    (h : fieldValidateSummary (.obj kvs) = .ok r) :
    vUuid (dGet kvs "uuid".data) = .ok r.uuid ∧
    coerceReqStr (dGet kvs "alias".data) = .ok r.«alias» ∧
    coerceReqStr (dGet kvs "machine".data) = .ok r.machine ∧
    vCode (dGet kvs "code".data) = .ok r.code ∧
    coerceReqStr (dGet kvs "description".data) = .ok r.description ∧
    vStatus (dGet kvs "status".data) = .ok r.status ∧
    vAuthorEmail (dGet kvs "author_email".data) = .ok r.author_email ∧
    vIdsTypes (dGet kvs "ids_types".data) = .ok r.ids_types ∧
    vMetadata (dGet kvs "metadata".data) = .ok r.metadata := by
  unfold fieldValidateSummary at h
  obtain ⟨uuid, h1, h⟩ := exceptBind_ok h
  obtain ⟨al, h2, h⟩ := exceptBind_ok h
  obtain ⟨machine, h3, h⟩ := exceptBind_ok h
  obtain ⟨code, h4, h⟩ := exceptBind_ok h
  obtain ⟨description, h5, h⟩ := exceptBind_ok h
  obtain ⟨status, h6, h⟩ := exceptBind_ok h
  obtain ⟨author_email, h7, h⟩ := exceptBind_ok h
  obtain ⟨ids_types, h8, h⟩ := exceptBind_ok h
  obtain ⟨metadata, h9, h⟩ := exceptBind_ok h
  cases h
  exact ⟨h1, h2, h3, h4, h5, h6, h7, h8, h9⟩

theorem fvSimulation_ok_fields {kvs : PyDict JVal} {r : SimulationRec}
    (h : fieldValidateSimulation (.obj kvs) = .ok r) :
    vUuid (dGet kvs "uuid".data) = .ok r.uuid ∧
    coerceReqStr (dGet kvs "alias".data) = .ok r.«alias» ∧
    coerceReqStr (dGet kvs "machine".data) = .ok r.machine ∧
    vCode (dGet kvs "code".data) = .ok r.code ∧
    coerceReqStr (dGet kvs "description".data) = .ok r.description ∧
    vStatus (dGet kvs "status".data) = .ok r.status ∧
    vAuthorEmail (dGet kvs "author_email".data) = .ok r.author_email ∧
    vIdsTypes (dGet kvs "ids_types".data) = .ok r.ids_types ∧
    vMetadata (dGet kvs "metadata".data) = .ok r.metadata ∧
    vImasUri (dGet kvs "imas_uri".data) = .ok r.imas_uri ∧
    vIOList (dGet kvs "inputs".data) = .ok r.inputs ∧
    vIOList (dGet kvs "outputs".data) = .ok r.outputs := by
  unfold fieldValidateSimulation at h
  obtain ⟨uuid, h1, h⟩ := exceptBind_ok h
  obtain ⟨al, h2, h⟩ := exceptBind_ok h
  obtain ⟨machine, h3, h⟩ := exceptBind_ok h
  obtain ⟨code, h4, h⟩ := exceptBind_ok h
  obtain ⟨description, h5, h⟩ := exceptBind_ok h
  obtain ⟨status, h6, h⟩ := exceptBind_ok h
  obtain ⟨author_email, h7, h⟩ := exceptBind_ok h
  obtain ⟨ids_types, h8, h⟩ := exceptBind_ok h
  obtain ⟨metadata, h9, h⟩ := exceptBind_ok h
  obtain ⟨imas_uri, h10, h⟩ := exceptBind_ok h
  obtain ⟨inputs, h11, h⟩ := exceptBind_ok h
  obtain ⟨outputs, h12, h⟩ := exceptBind_ok h
  cases h
  exact ⟨h1, h2, h3, h4, h5, h6, h7, h8, h9, h10, h11, h12⟩

/-! ## Lookup lemmas for the transformed dict -/

theorem dGet_copyIf_ne (src t : PyDict JVal) (key k' : Str) (h : k' ≠ key) :
    dGet (copyIf src t key) k' = dGet t k' := by
  unfold copyIf
  split
  · exact dGet_dSet_ne t key k' _ h
  · rfl

theorem dGet_addField_ne (md : PyDict JVal) (apiK modelK k' : Str) (t : PyDict JVal)
    (h : k' ≠ modelK) :
    dGet (addField md apiK modelK t) k' = dGet t k' := by
  unfold addField
  split
  · exact dGet_dSet_ne t modelK k' _ h
  · rfl

theorem dGet_addCode_ne (md t : PyDict JVal) (k' : Str) (h : k' ≠ "code".data) :
    dGet (addCode md t) k' = dGet t k' := by
  unfold addCode
  split
  · exact dGet_dSet_ne t "code".data k' _ h
  · rfl

theorem dGet_addMeta_ne (sm : SimulationMetadata) (t : PyDict JVal) (k' : Str)
    (h : k' ≠ "metadata".data) :
    dGet (addMeta sm t) k' = dGet t k' := by
  unfold addMeta
  exact dGet_dSet_ne t "metadata".data k' _ h

theorem dGet_addInOut_ne (kvs t : PyDict JVal) (k' : Str)
    (h1 : k' ≠ "inputs".data) (h2 : k' ≠ "outputs".data) :
    dGet (addInOut kvs t) k' = dGet t k' := by
  unfold addInOut
  rw [dGet_copyIf_ne _ _ _ _ h2, dGet_copyIf_ne _ _ _ _ h1]

theorem dGet_defaultIfMissing_ne (t : PyDict JVal) (key k' : Str) (v : JVal)
    (h : k' ≠ key) :
    dGet (defaultIfMissing t key v) k' = dGet t k' := by
  unfold defaultIfMissing
  split
  · rfl
  · exact dGet_dSet_ne t key k' v h

theorem dGet_copyBase (kvs : PyDict JVal) (k' : Str)
    (h1 : k' ≠ "uuid".data) (h2 : k' ≠ "alias".data) :
    dGet (copyBase kvs) k' = none := by
  unfold copyBase
  rw [dGet_copyIf_ne _ _ _ _ h2, dGet_copyIf_ne _ _ _ _ h1]
  rfl

theorem dGet_addField_of_some {md : PyDict JVal} {apiK : Str} {v : JVal}
    (modelK : Str) (t : PyDict JVal) (h : dGet md apiK = some v) :
    dGet (addField md apiK modelK t) modelK = some v := by
  unfold addField
  rw [if_pos (dHas_of_dGet_eq_some h), h]
  exact dGet_dSet_self t modelK v

theorem addField_of_none {md : PyDict JVal} {apiK : Str} (modelK : Str)
    (t : PyDict JVal) (h : dGet md apiK = none) :
    addField md apiK modelK t = t := by
  unfold addField
  rw [if_neg (by unfold dHas; rw [h]; simp)]

theorem dGet_defaultIfMissing_of_none {t : PyDict JVal} {key : Str} (v : JVal)
    (h : dGet t key = none) :
    dGet (defaultIfMissing t key v) key = some v := by
  unfold defaultIfMissing
  rw [if_neg (by unfold dHas; rw [h]; simp)]
  exact dGet_dSet_self t key v

theorem defaultIfMissing_of_some {t : PyDict JVal} {key : Str} {v : JVal} (w : JVal)
    (h : dGet t key = some v) :
    defaultIfMissing t key w = t := by
  unfold defaultIfMissing
  rw [if_pos (dHas_of_dGet_eq_some h)]

theorem buildT_eq (kvs md : PyDict JVal) (sm : SimulationMetadata) :
    buildT kvs md sm =
      defaultIfMissing (defaultIfMissing (defaultIfMissing (defaultIfMissing
        (preDefaults kvs md sm)
        "machine".data (.str []))
        "code".data (.obj [("name".data, .str [])]))
        "description".data (.str []))
        "status".data (.str "pending".data) := rfl

theorem preDefaults_status_of_some {md : PyDict JVal} {v : JVal}
    (kvs : PyDict JVal) (sm : SimulationMetadata)
    (h : dGet md "status".data = some v) :
    dGet (preDefaults kvs md sm) "status".data = some v := by
  unfold preDefaults
  rw [dGet_addInOut_ne _ _ _ (by decide) (by decide),
    dGet_addMeta_ne _ _ _ (by decide),
    dGet_addField_ne md "ids".data "ids_types".data "status".data _ (by decide),
    dGet_addField_ne md "uploaded_by".data "author_email".data "status".data _ (by decide),
    dGet_addField_ne md "description".data "description".data "status".data _ (by decide)]
  exact dGet_addField_of_some _ _ h

theorem preDefaults_status_of_none {md : PyDict JVal}
    (kvs : PyDict JVal) (sm : SimulationMetadata)
    (h : dGet md "status".data = none) :
    dGet (preDefaults kvs md sm) "status".data = none := by
  unfold preDefaults
  rw [dGet_addInOut_ne _ _ _ (by decide) (by decide),
    dGet_addMeta_ne _ _ _ (by decide),
    dGet_addField_ne md "ids".data "ids_types".data "status".data _ (by decide),
    dGet_addField_ne md "uploaded_by".data "author_email".data "status".data _ (by decide),
    dGet_addField_ne md "description".data "description".data "status".data _ (by decide),
    addField_of_none _ _ h,
    dGet_addCode_ne _ _ _ (by decide),
    dGet_addField_ne md "machine".data "machine".data "status".data _ (by decide)]
  exact dGet_copyBase kvs _ (by decide) (by decide)

/-- The `status` key of the transformed dict when the flat metadata dict
carries a `status` value. -/

theorem buildT_status_of_some {md : PyDict JVal} {v : JVal}
    (kvs : PyDict JVal) (sm : SimulationMetadata)
    (h : dGet md "status".data = some v) :
    dGet (buildT kvs md sm) "status".data = some v := by
  rw [buildT_eq]
  have h0 := preDefaults_status_of_some kvs sm h
  have h1 : dGet (defaultIfMissing (preDefaults kvs md sm) "machine".data (.str []))
      "status".data = some v := by
    rw [dGet_defaultIfMissing_ne _ "machine".data "status".data _ (by decide)]
    exact h0
  have h2 : dGet (defaultIfMissing (defaultIfMissing (preDefaults kvs md sm)
      "machine".data (.str [])) "code".data (.obj [("name".data, .str [])]))
      "status".data = some v := by
    rw [dGet_defaultIfMissing_ne _ "code".data "status".data _ (by decide)]
    exact h1
  have h3 : dGet (defaultIfMissing (defaultIfMissing (defaultIfMissing
      (preDefaults kvs md sm) "machine".data (.str [])) "code".data
      (.obj [("name".data, .str [])])) "description".data (.str []))
      "status".data = some v := by
    rw [dGet_defaultIfMissing_ne _ "description".data "status".data _ (by decide)]
    exact h2
  rw [defaultIfMissing_of_some _ h3]
  exact h3

/-- The `status` key of the transformed dict defaults to `"pending"` when
the flat metadata dict has no `status`. -/

theorem buildT_status_of_none {md : PyDict JVal}
    (kvs : PyDict JVal) (sm : SimulationMetadata)
    (h : dGet md "status".data = none) :
    dGet (buildT kvs md sm) "status".data = some (.str "pending".data) := by
  rw [buildT_eq]
  have h0 := preDefaults_status_of_none kvs sm h
  have h3 : dGet (defaultIfMissing (defaultIfMissing (defaultIfMissing
      (preDefaults kvs md sm) "machine".data (.str [])) "code".data
      (.obj [("name".data, .str [])])) "description".data (.str []))
      "status".data = none := by
    rw [dGet_defaultIfMissing_ne _ "description".data "status".data _ (by decide),
      dGet_defaultIfMissing_ne _ "code".data "status".data _ (by decide),
      dGet_defaultIfMissing_ne _ "machine".data "status".data _ (by decide)]
    exact h0
  exact dGet_defaultIfMissing_of_none _ h3

/-- The transformed dict always carries the structured metadata instance
under `"metadata"`. -/

theorem buildT_metadata (kvs md : PyDict JVal) (sm : SimulationMetadata) :
    dGet (buildT kvs md sm) "metadata".data = some (.meta sm) := by
  rw [buildT_eq]
  rw [dGet_defaultIfMissing_ne _ "status".data "metadata".data _ (by decide),
    dGet_defaultIfMissing_ne _ "description".data "metadata".data _ (by decide),
    dGet_defaultIfMissing_ne _ "code".data "metadata".data _ (by decide),
    dGet_defaultIfMissing_ne _ "machine".data "metadata".data _ (by decide)]
  unfold preDefaults
  rw [dGet_addInOut_ne _ _ _ (by decide) (by decide)]
  exact dGet_dSet_self _ _ _

/-- The transformed dict never has an `imas_uri` key. -/

theorem buildT_imas_uri_none (kvs md : PyDict JVal) (sm : SimulationMetadata) :
    dGet (buildT kvs md sm) "imas_uri".data = none := by
  rw [buildT_eq]
  rw [dGet_defaultIfMissing_ne _ "status".data "imas_uri".data _ (by decide),
    dGet_defaultIfMissing_ne _ "description".data "imas_uri".data _ (by decide),
    dGet_defaultIfMissing_ne _ "code".data "imas_uri".data _ (by decide),
    dGet_defaultIfMissing_ne _ "machine".data "imas_uri".data _ (by decide)]
  unfold preDefaults
  rw [dGet_addInOut_ne _ _ _ (by decide) (by decide),
    dGet_addMeta_ne _ _ _ (by decide),
    dGet_addField_ne md "ids".data "ids_types".data "imas_uri".data _ (by decide),
    dGet_addField_ne md "uploaded_by".data "author_email".data "imas_uri".data _ (by decide),
    dGet_addField_ne md "description".data "description".data "imas_uri".data _ (by decide),
    dGet_addField_ne md "status".data "status".data "imas_uri".data _ (by decide),
    dGet_addCode_ne _ _ _ (by decide),
    dGet_addField_ne md "machine".data "machine".data "imas_uri".data _ (by decide)]
  exact dGet_copyBase kvs _ (by decide) (by decide)

/-! ## C8 — the `ids`/`ids_types` string parser -/

theorem pySplitc_ne_nil (c : Char) (s : Str) : pySplitc c s ≠ [] := by
  cases s with
  | nil => simp [pySplitc]
  | cons ch rest =>
    simp only [pySplitc]
    split <;> simp

theorem coerceStrList_map_str (l : List Str) :
    coerceStrList (l.map JVal.str) = .ok l := by
  induction l with
  | nil => rfl
  | cons h t ih =>
    simp [coerceStrList, coerceReqStr, Bind.bind, Except.bind, ih]

/-- `vIdsTypes` on a string value, in closed form. -/

theorem vIdsTypes_str (s : Str) :
    vIdsTypes (some (.str s)) =
      .ok (if pyStripChars "[]".data s = [] then none
        else some ((pySplitc ',' (pyStripChars "[]".data s)).map pyStripWs)) := by
  by_cases hv : pyStripChars "[]".data s = []
  · simp [vIdsTypes, parse_ids_string, hv]
  · simp only [vIdsTypes, parse_ids_string, if_neg hv, hv, if_pos (by simpa using hv)]
    have hmap : (pySplitc ',' (pyStripChars "[]".data s)).map (fun e => JVal.str (pyStripWs e)) =
        ((pySplitc ',' (pyStripChars "[]".data s)).map pyStripWs).map JVal.str := by
      rw [List.map_map]
      rfl
    rw [hmap, coerceStrList_map_str]
    rfl

/-- C8 counterexample: on `"[[core_profiles]]"` the source validator strips
all leading/trailing bracket characters and yields `["core_profiles"]`,
whereas stripping a single leading/trailing bracket pair as the claim states
would yield `["[core_profiles]"]`. -/

theorem parse_ids_string_one_pair_counterexample :
    parse_ids_string (.str "[[core_profiles]]".data) =
      .arr [.str "core_profiles".data] ∧
    idsClaimParse "[[core_profiles]]".data =
      .arr [.str "[core_profiles]".data] ∧
    "core_profiles".data ≠ "[core_profiles]".data := by
  exact ⟨rfl, rfl, by decide⟩

/-- C8 (amended): the validator strips all leading and trailing bracket
characters (not just one pair), splits on commas with per-element whitespace
trimming, and yields null (never an empty list) when nothing remains; so
`"[core_profiles, equilibrium]"` parses to the two-element list and `"[]"`
to null. -/

theorem parse_ids_string_amended :
    (∀ (kvs : PyDict JVal) (s : Str) (r : SummaryRec),
      dHas kvs "metadata".data = false →
      dGet kvs "ids_types".data = some (.str s) →
      SimulationSummary.model_validate (.obj kvs) = .ok r →
      r.ids_types = (if pyStripChars "[]".data s = [] then none
        else some ((pySplitc ',' (pyStripChars "[]".data s)).map pyStripWs)) ∧
      r.ids_types ≠ some []) ∧
    parse_ids_string (.str "[core_profiles, equilibrium]".data) =
      .arr [.str "core_profiles".data, .str "equilibrium".data] ∧
    parse_ids_string (.str "[]".data) = .null := by
  refine ⟨?_, rfl, rfl⟩
  intro kvs s r hm hids hok
  unfold SimulationSummary.model_validate at hok
  rw [transform_pass_through hm] at hok
  simp only [Bind.bind, Except.bind] at hok
  have hfield := (fvSummary_ok_fields hok).2.2.2.2.2.2.2.1
  rw [hids, vIdsTypes_str] at hfield
  have hval : r.ids_types = (if pyStripChars "[]".data s = [] then none
      else some ((pySplitc ',' (pyStripChars "[]".data s)).map pyStripWs)) := by
    injection hfield with h'
    exact h'.symm
  refine ⟨hval, ?_⟩
  rw [hval]
  by_cases hv : pyStripChars "[]".data s = []
  · simp [hv]
  · rw [if_neg hv]
    intro hcontra
    have hne := pySplitc_ne_nil ',' (pyStripChars "[]".data s)
    simp only [Option.some.injEq] at hcontra
    exact hne (List.map_eq_nil_iff.mp hcontra)

/-- Witness for C8 (amended) at `kvsC8`. -/

theorem parse_ids_string_amended_witness :
    recC8.ids_types = some ["core_profiles".data, "equilibrium".data] ∧
    recC8.ids_types ≠ some [] := by
  have h := parse_ids_string_amended.1 kvsC8 "[core_profiles, equilibrium]".data recC8
    (by decide) rfl (by rfl)
  exact ⟨h.1.trans (by decide), h.2⟩

/-! ## C6 — heating/current-drive key routing -/

theorem pyReplaceAux_cons_pos {pat rep : Str} {n : Nat} {h : Char} {t : Str}
    (hne : pat ≠ []) (hpre : pat.isPrefixOf (h :: t) = true) :
    pyReplaceAux pat rep (n + 1) (h :: t) =
      rep ++ pyReplaceAux pat rep n (t.drop (pat.length - 1)) := by
  simp only [pyReplaceAux]
  rw [if_pos ⟨hne, hpre⟩]

theorem pyReplaceAux_cons_neg {pat rep : Str} {n : Nat} {h : Char} {t : Str}
    (hpre : ¬(pat ≠ [] ∧ pat.isPrefixOf (h :: t) = true)) :
    pyReplaceAux pat rep (n + 1) (h :: t) = h :: pyReplaceAux pat rep n t := by
  simp only [pyReplaceAux]
  rw [if_neg hpre]

/-- `pyReplaceAux` leaves a string without occurrences of the pattern
unchanged. -/

theorem pyReplaceAux_no_occurrence (pat rep : Str) :
    ∀ (n : Nat) (u : Str), u.length ≤ n →
      (∀ t, t <:+ u → ¬ pat <+: t) → pyReplaceAux pat rep n u = u := by
  intro n
  induction n with
  | zero => intro u _ _; rfl
  | succ n ih =>
    intro u hu hocc
    cases u with
    | nil => rfl
    | cons h t =>
      rw [pyReplaceAux_cons_neg (by
        rintro ⟨-, hpre⟩
        exact hocc (h :: t) (List.suffix_refl _) (List.isPrefixOf_iff_prefix.mp hpre))]
      rw [ih t (by simpa using Nat.succ_le_succ_iff.mp hu)
        (fun s hs => hocc s (hs.trans (List.suffix_cons h t)))]

/-- `s.replace(pat, "")` on a string that starts with `pat` and has no other
occurrence of `pat` removes exactly that prefix. -/

theorem pyReplace_strip_prefix {pat rest : Str} (hp : pat ≠ [])
    (hocc : ¬ pat <:+: rest) :
    pyReplace (pat ++ rest) pat [] = rest := by
  cases pat with
  | nil => exact absurd rfl hp
  | cons ph pt =>
    have hpre : (ph :: pt).isPrefixOf (ph :: (pt ++ rest)) = true :=
      List.isPrefixOf_iff_prefix.mpr ⟨rest, by simp⟩
    unfold pyReplace
    rw [show (ph :: pt) ++ rest = ph :: (pt ++ rest) from rfl,
      show (ph :: (pt ++ rest)).length = (pt ++ rest).length + 1 from rfl,
      pyReplaceAux_cons_pos (by simp) hpre,
      show (ph :: pt).length - 1 = pt.length from by simp,
      List.drop_left pt rest, List.nil_append]
    exact pyReplaceAux_no_occurrence _ _ _ _ (by simp) (fun t hsuf hpref =>
      hocc (hpref.isInfix.trans hsuf.isInfix))

/-- Splitting a string without the separator. -/

theorem pySplitc_not_mem {c : Char} {u : Str} (h : c ∉ u) : pySplitc c u = [u] := by
  induction u with
  | nil => rfl
  | cons ch t ih =>
    have hc : ¬(ch = c) := fun hcc => h (hcc ▸ List.mem_cons_self ch t)
    have ht : c ∉ t := fun hm => h (List.mem_cons_of_mem ch hm)
    simp only [pySplitc]
    rw [ih ht]
    simp [hc]

/-- Splitting at the first separator occurrence. -/

theorem pySplitc_append {c : Char} {a : Str} (b : Str) (h : c ∉ a) :
    pySplitc c (a ++ c :: b) = a :: pySplitc c b := by
  induction a with
  | nil =>
    simp only [List.nil_append, pySplitc]
    cases hr : pySplitc c b with
    | nil => exact absurd hr (pySplitc_ne_nil c b)
    | cons x xs => simp
  | cons ch t ih =>
    have hc : ¬(ch = c) := fun hcc => h (hcc ▸ List.mem_cons_self ch t)
    have ht : c ∉ t := fun hm => h (List.mem_cons_of_mem ch hm)
    simp only [List.cons_append, pySplitc, List.append_eq]
    rw [ih ht]
    simp [hc]

/-- The shared computation of `heatingName` on a key of the shape
`heating_current_drive.<dev>[<idx>].<tail>` where the tail's first dotted
component is `f`: it is routed as `parts[1] = f` dictates. -/

theorem heatingName_shape (dev idx f tail : Str)
    (hd1 : '.' ∉ dev) (hd2 : '[' ∉ dev) (hi1 : '.' ∉ idx) (hi2 : '[' ∉ idx)
    (hi3 : ']' ∉ idx)
    (hocc : ¬ hcdPrefix <:+: ((dev ++ '[' :: idx ++ [']']) ++ '.' :: (f ++ tail)))
    (parts1 : List Str) (hsplitTail : pySplitc '.' (f ++ tail) = f :: parts1) :
    heatingName (hcdPrefix ++ ((dev ++ '[' :: idx ++ [']']) ++ '.' :: (f ++ tail))) =
      some (if f = "source".data then dev ++ "_".data ++ idx ++ "_power_source".data
        else dev ++ "_".data ++ idx ++ "_".data ++ f) := by
  have hrep : pyReplace (hcdPrefix ++ ((dev ++ '[' :: idx ++ [']']) ++
      '.' :: (f ++ tail))) hcdPrefix [] =
      (dev ++ '[' :: idx ++ [']']) ++ '.' :: (f ++ tail) :=
    pyReplace_strip_prefix (by decide) hocc
  have hdot0 : '.' ∉ dev ++ '[' :: idx ++ [']'] := by
    intro hm
    simp only [List.mem_append, List.mem_cons] at hm
    rcases hm with (h | h | h) | h
    · exact hd1 h
    · cases h
    · exact hi1 h
    · simp at h
  have hsplit1 : pySplitc '.' ((dev ++ '[' :: idx ++ [']']) ++ '.' :: (f ++ tail)) =
      (dev ++ '[' :: idx ++ [']']) :: pySplitc '.' (f ++ tail) :=
    pySplitc_append _ hdot0
  have hbr : '[' ∉ idx ++ [']'] := by
    intro hm
    simp only [List.mem_append, List.mem_cons] at hm
    rcases hm with h | h
    · exact hi2 h
    · simp at h
  have hsplit2 : pySplitc '[' (dev ++ '[' :: (idx ++ [']'])) = dev :: [idx ++ [']']] := by
    rw [pySplitc_append _ hd2, pySplitc_not_mem hbr]
  have hsplit3 : pySplitc ']' (idx ++ [']']) = idx :: [[]] := by
    rw [show idx ++ [']'] = idx ++ ']' :: [] from rfl, pySplitc_append _ hi3]
    rfl
  have hcontains : (dev ++ '[' :: idx ++ [']']).contains '[' = true := by
    apply List.elem_eq_true_of_mem
    simp
  unfold heatingName
  rw [if_pos (show pyStartswith hcdPrefix _ = true from
    List.isPrefixOf_iff_prefix.mpr ⟨_, rfl⟩)]
  rw [hrep, hsplit1]
  simp only [List.headD_cons]
  rw [show dev ++ '[' :: idx ++ [']'] = dev ++ '[' :: (idx ++ [']']) by simp] at hcontains ⊢
  rw [hcontains]
  simp only [if_true]
  rw [hsplit2]
  simp only [List.headD_cons, List.getD_cons_succ, List.getD_cons_zero]
  rw [hsplit3]
  simp only [List.headD_cons]
  rw [hsplitTail]
  simp only [List.getD_cons_succ, List.getD_cons_zero]

/-- C6 counterexample: the key `heating_current_drive.nbi[0].power.source`
ends in `.source` but is routed to `nbi_0_power` (the routing looks only at
the component after the device segment), so the heating sub-record's
`nbi_0_power_source` field stays null instead of carrying the value. -/

theorem heating_power_source_counterexample :
    heatingData [("heating_current_drive.nbi[0].power.source".data, .str "nbi".data)] =
      [("nbi_0_power".data, .str "nbi".data)] ∧
    SimulationMetadata.from_metadata_dict
      [("heating_current_drive.nbi[0].power.source".data, .str "nbi".data)] =
      .ok ⟨none, none, none, none,
        some ⟨none, none, none, none, none, none, none, none, none, none, none⟩,
        none, none, none, none⟩ ∧
    (⟨none, none, none, none, none, none, none, none, none, none, none⟩ :
      HeatingCurrentDriveMetadata).nbi_0_power_source = none := by
  exact ⟨rfl, rfl, rfl⟩

/-- C6 (amended): a heating key is routed by the component directly after
the bracketed device segment: `heating_current_drive.<device>[<index>].<f>…`
goes to `<device>_<index>_<f>` for `f ≠ "source"` (anything after `f`, such
as a trailing `.value`, is ignored), while the two-component key
`heating_current_drive.<device>[<index>].source` goes to
`<device>_<index>_power_source`; each routed key carries its value into the
heating data mapping. -/

theorem heatingName_amended :
    (∀ (dev idx f : Str),
      '.' ∉ dev → '[' ∉ dev → '.' ∉ idx → '[' ∉ idx → ']' ∉ idx → '.' ∉ f →
      f ≠ "source".data →
      ¬ hcdPrefix <:+: (dev ++ "[".data ++ idx ++ "].".data ++ f ++ ".value".data) →
      heatingName (hcdPrefix ++ dev ++ "[".data ++ idx ++ "].".data ++ f ++ ".value".data) =
        some (dev ++ "_".data ++ idx ++ "_".data ++ f)) ∧
    (∀ (dev idx : Str),
      '.' ∉ dev → '[' ∉ dev → '.' ∉ idx → '[' ∉ idx → ']' ∉ idx →
      ¬ hcdPrefix <:+: (dev ++ "[".data ++ idx ++ "].source".data) →
      heatingName (hcdPrefix ++ dev ++ "[".data ++ idx ++ "].source".data) =
        some (dev ++ "_".data ++ idx ++ "_power_source".data)) ∧
    (∀ (key n : Str) (v : JVal), heatingName key = some n →
      heatingData [(key, v)] = [(n, v)]) := by
  refine ⟨?_, ?_, ?_⟩
  · intro dev idx f hd1 hd2 hi1 hi2 hi3 hf1 hf2 hocc
    have hkey : hcdPrefix ++ dev ++ "[".data ++ idx ++ "].".data ++ f ++ ".value".data =
        hcdPrefix ++ ((dev ++ '[' :: idx ++ [']']) ++ '.' :: (f ++ ".value".data)) := by
      simp [List.append_assoc]
    have hocc' : ¬ hcdPrefix <:+:
        ((dev ++ '[' :: idx ++ [']']) ++ '.' :: (f ++ ".value".data)) := by
      intro hinf
      apply hocc
      have heq : (dev ++ '[' :: idx ++ [']']) ++ '.' :: (f ++ ".value".data) =
          dev ++ "[".data ++ idx ++ "].".data ++ f ++ ".value".data := by
        simp [List.append_assoc]
      rwa [heq] at hinf
    have hstail : pySplitc '.' (f ++ ".value".data) = f :: ["value".data] := by
      rw [show (".value".data : Str) = '.' :: "value".data from rfl,
        pySplitc_append _ hf1, pySplitc_not_mem (by decide)]
    rw [hkey, heatingName_shape dev idx f ".value".data hd1 hd2 hi1 hi2 hi3 hocc'
      ["value".data] hstail, if_neg hf2]
  · intro dev idx hd1 hd2 hi1 hi2 hi3 hocc
    have hkey : hcdPrefix ++ dev ++ "[".data ++ idx ++ "].source".data =
        hcdPrefix ++ ((dev ++ '[' :: idx ++ [']']) ++ '.' :: ("source".data ++ [])) := by
      simp [List.append_assoc]
    have hocc' : ¬ hcdPrefix <:+:
        ((dev ++ '[' :: idx ++ [']']) ++ '.' :: ("source".data ++ [])) := by
      intro hinf
      apply hocc
      have heq : (dev ++ '[' :: idx ++ [']']) ++ '.' :: ("source".data ++ []) =
          dev ++ "[".data ++ idx ++ "].source".data := by
        simp [List.append_assoc]
      rwa [heq] at hinf
    have hstail : pySplitc '.' ("source".data ++ ([] : Str)) = "source".data :: [] := by
      rw [List.append_nil]
      exact pySplitc_not_mem (by decide)
    rw [hkey, heatingName_shape dev idx "source".data [] hd1 hd2 hi1 hi2 hi3 hocc'
      [] hstail, if_pos rfl]
  · intro key n v hn
    unfold heatingData
    simp only [List.foldl_cons, List.foldl_nil, hn]
    rfl

/-- Witness for C6 (amended) at `nbi[0].angle.value` and `ec[0].source`. -/

theorem heatingName_amended_witness :
    heatingName "heating_current_drive.nbi[0].angle.value".data =
      some "nbi_0_angle".data ∧
    heatingName "heating_current_drive.ec[0].source".data =
      some "ec_0_power_source".data ∧
    heatingData [("heating_current_drive.ec[0].source".data, .str "ec_system".data)] =
      [("ec_0_power_source".data, .str "ec_system".data)] := by
  refine ⟨?_, ?_, ?_⟩
  · exact (heatingName_amended.1 "nbi".data "0".data "angle".data
      (by decide) (by decide) (by decide) (by decide) (by decide) (by decide)
      (by decide) (by decide)).trans (by decide)
  · exact (heatingName_amended.2.1 "ec".data "0".data
      (by decide) (by decide) (by decide) (by decide) (by decide)
      (by decide)).trans (by decide)
  · exact heatingName_amended.2.2 "heating_current_drive.ec[0].source".data
      "ec_0_power_source".data (.str "ec_system".data) (by decide)

/-! ## C9 — the after-validator never overwrites a non-empty `imas_uri` -/

/-- C9: the post-validation derivation step (`extract_imas_uri`) leaves a
non-empty `imas_uri` exactly as supplied and modifies no field other than
`imas_uri`; consequently a `Simulation` validated (pass-through payload)
with a non-empty `imas_uri` keeps it verbatim. -/

theorem extract_imas_uri_preserves_nonempty :
    (∀ r : SimulationRec, r.imas_uri ≠ [] → extract_imas_uri r = r) ∧
    (∀ r : SimulationRec,
      extract_imas_uri r = { r with imas_uri := (extract_imas_uri r).imas_uri }) ∧
    (∀ (kvs : PyDict JVal) (s : Str) (r : SimulationRec),
      dHas kvs "metadata".data = false →
      dGet kvs "imas_uri".data = some (.str s) → s ≠ [] →
      Simulation.model_validate (.obj kvs) = .ok r → r.imas_uri = s) := by
  refine ⟨?_, ?_, ?_⟩
  · intro r hne
    unfold extract_imas_uri
    rw [if_neg (fun hc => hne hc.1)]
  · intro r
    unfold extract_imas_uri
    split
    · cases hf : r.outputs.find? (fun o => decide (o.type = some ObjType.IMAS)) with
      | none => rfl
      | some o => rfl
    · rfl
  · intro kvs s r hm himas hs hok
    unfold Simulation.model_validate at hok
    rw [transform_pass_through hm] at hok
    simp only [Bind.bind, Except.bind] at hok
    obtain ⟨r0, hr0, hr⟩ := exceptBind_ok hok
    have h10 := (fvSimulation_ok_fields hr0).2.2.2.2.2.2.2.2.2.1
    rw [himas] at h10
    have hval : r0.imas_uri = s := by
      injection h10 with h'
      exact h'.symm
    have hkeep : extract_imas_uri r0 = r0 := by
      unfold extract_imas_uri
      rw [if_neg (fun hc => hs (hval ▸ hc.1))]
    injection hr with h'
    rw [← h', hkeep, hval]

/-- Witness for C9 at the concrete payload `p4`. -/

theorem extract_imas_uri_preserves_nonempty_witness :
    Simulation.model_validate p4 = .ok r4 ∧ r4.imas_uri = "preset".data := by
  refine ⟨rfl, ?_⟩
  exact extract_imas_uri_preserves_nonempty.2.2 (match p4 with
    | .obj kvs => kvs
    | _ => []) "preset".data r4 (by decide) rfl (by decide) rfl

/-! ## C4 — derivation of the primary IMAS URI from `outputs` -/

/-- C4 counterexample: a `Simulation` validated with a preset non-empty
`imas_uri` and an `IMAS` entry in `outputs` keeps the preset value, so its
`imas_uri` is not the URI of the first `IMAS` output. -/

theorem simulation_imas_uri_counterexample :
    Simulation.model_validate p4 = .ok r4 ∧
    (∃ o ∈ r4.outputs, o.type = some ObjType.IMAS ∧ o.uri = "other".data) ∧
    r4.imas_uri = "preset".data ∧
    "preset".data ≠ "other".data := by
  refine ⟨rfl, ⟨⟨"i1".data, "other".data, some .IMAS, none, none⟩, ?_, rfl, rfl⟩, rfl, by decide⟩
  simp [r4]

/-- The after-validator's effect on a record whose `imas_uri` is empty. -/

theorem extract_imas_uri_of_empty {r : SimulationRec} (h : r.imas_uri = []) :
    (extract_imas_uri r).imas_uri =
      (match r.outputs.find? (fun o => decide (o.type = some ObjType.IMAS)) with
        | some o => o.uri
        | none => []) ∧
    (extract_imas_uri r).outputs = r.outputs := by
  unfold extract_imas_uri
  by_cases hcond : r.imas_uri = [] ∧ ¬r.outputs.isEmpty = true
  · rw [if_pos hcond]
    cases hf : r.outputs.find? (fun o => decide (o.type = some ObjType.IMAS)) with
    | none => exact ⟨h, rfl⟩
    | some o => exact ⟨rfl, rfl⟩
  · rw [if_neg hcond]
    have houts : r.outputs = [] := by
      by_contra hne
      exact hcond ⟨h, by simp [hne]⟩
    rw [houts]
    exact ⟨by simp [List.find?]; exact h, rfl⟩

/-- C4 (amended): for every `Simulation` validated with `imas_uri` unset
(absent or empty) — in particular every record built from an API payload,
where the transformation never emits an `imas_uri` key — the derived
`imas_uri` equals the URI of the first `IMAS`-typed entry of `outputs` in
list order (never an earlier `FILE` entry), and stays empty when no `IMAS`
entry exists. -/

theorem simulation_imas_uri_derivation (kvs : PyDict JVal) (r : SimulationRec)
    (hin : dGet kvs "imas_uri".data = none ∨ dGet kvs "imas_uri".data = some (.str []))
    (hok : Simulation.model_validate (.obj kvs) = .ok r) :
    r.imas_uri =
      (match r.outputs.find? (fun o => decide (o.type = some ObjType.IMAS)) with
        | some o => o.uri
        | none => []) := by
  unfold Simulation.model_validate at hok
  cases hmeta : dHas kvs "metadata".data with
  | false =>
    rw [transform_pass_through hmeta] at hok
    simp only [Bind.bind, Except.bind] at hok
    obtain ⟨r0, hr0, hr⟩ := exceptBind_ok hok
    have h10 := (fvSimulation_ok_fields hr0).2.2.2.2.2.2.2.2.2.1
    have hempty : r0.imas_uri = [] := by
      cases hin with
      | inl h => rw [h] at h10; injection h10 with h'; exact h'.symm
      | inr h => rw [h] at h10; injection h10 with h'; exact h'.symm
    injection hr with h'
    obtain ⟨hu, ho⟩ := extract_imas_uri_of_empty hempty
    rw [← h', hu, ho]
  | true =>
    obtain ⟨r0, hr0, hr⟩ := exceptBind_ok hok
    obtain ⟨t, ht, hfv⟩ := exceptBind_ok hr0
    obtain ⟨md, sm, hmd, hsm, hteq⟩ := transform_ok_with_metadata hmeta ht
    subst hteq
    have h10 := (fvSimulation_ok_fields hfv).2.2.2.2.2.2.2.2.2.1
    rw [buildT_imas_uri_none] at h10
    have hempty : r0.imas_uri = [] := by
      injection h10 with h'
      exact h'.symm
    injection hr with h'
    obtain ⟨hu, ho⟩ := extract_imas_uri_of_empty hempty
    rw [← h', hu, ho]

/-- Witness for C4 (amended) at the concrete payload `p4b`. -/

theorem simulation_imas_uri_derivation_witness :
    Simulation.model_validate p4b = .ok r4b ∧ r4b.imas_uri = "other".data := by
  refine ⟨rfl, ?_⟩
  exact (simulation_imas_uri_derivation (match p4b with
    | .obj kvs => kvs
    | _ => []) r4b (Or.inl rfl) rfl).trans (by decide)

/-- C3 counterexample: re-running the transformation on its own normalized
output is not a no-op — the output still contains a `metadata` key (now a
model instance), so the pass-through branch is not taken and the second run
raises while iterating it. -/

theorem transform_not_idempotent_counterexample :
    transform_api_response p3 = .ok t3 ∧
    (transform_api_response t3).isOk = false := by
  exact ⟨rfl, rfl⟩

/-- C3 (amended): the transformation is the identity exactly on payloads
without a `metadata` key (and on non-dict values); but its own output on a
payload with a `metadata` array always contains a `metadata` key (bound to
the structured-metadata instance), so re-running it on that output does not
pass through — it fails while iterating the model instance. -/

theorem transform_pass_through_amended :
    (∀ v : JVal, (∀ kvs, v = .obj kvs → dHas kvs "metadata".data = false) →
      transform_api_response v = .ok v) ∧
    (∀ (kvs : PyDict JVal) (t : JVal), dHas kvs "metadata".data = true →
      transform_api_response (.obj kvs) = .ok t →
      ∃ (kvs' : PyDict JVal) (sm : SimulationMetadata), t = .obj kvs' ∧
        dGet kvs' "metadata".data = some (.meta sm) ∧
        (transform_api_response t).isOk = false) := by
  constructor
  · intro v hv
    cases v with
    | obj kvs => exact transform_pass_through (hv kvs rfl)
    | null => rfl
    | bool b => rfl
    | num q => rfl
    | str s => rfl
    | arr xs => rfl
    | meta m => rfl
  · intro kvs t hmeta hok
    obtain ⟨md, sm, hmd, hsm, hteq⟩ := transform_ok_with_metadata hmeta hok
    refine ⟨buildT kvs md sm, sm, hteq, buildT_metadata kvs md sm, ?_⟩
    subst hteq
    have hget : dGet (buildT kvs md sm) "metadata".data = some (.meta sm) :=
      buildT_metadata kvs md sm
    have hhas : dHas (buildT kvs md sm) "metadata".data = true :=
      dHas_of_dGet_eq_some hget
    have hflat : mdOf (buildT kvs md sm) = .error "metadata is not a list of dicts".data := by
      unfold mdOf
      rw [hget]
      rfl
    simp only [transform_api_response]
    rw [if_pos hhas]
    rw [hflat]
    rfl

/-- Witness for C3 (amended): the identity on a metadata-free payload, and
failure of the second run on the output of `p3`. -/

theorem transform_pass_through_amended_witness :
    transform_api_response p3free = .ok p3free ∧
    ∃ (kvs' : PyDict JVal) (sm : SimulationMetadata), t3 = .obj kvs' ∧
      dGet kvs' "metadata".data = some (.meta sm) ∧
      (transform_api_response t3).isOk = false := by
  constructor
  · exact transform_pass_through_amended.1 p3free (by
      intro kvs hk
      cases hk
      decide)
  · exact transform_pass_through_amended.2 (match p3 with
      | .obj kvs => kvs
      | _ => []) t3 (by decide) rfl

/-! ## C1 — status normalization and round-trip -/

theorem vStatus_str (s : Str) :
    vStatus (some (.str s)) =
      (if s = "passed".data then .ok .passed
       else if s = "failed".data then .ok .failed
       else if s = "pending".data then .ok .pending
       else .error "status must be one of passed, failed, pending".data) := rfl

theorem vStatus_invalid {s : Str} (h1 : s ≠ "passed".data) (h2 : s ≠ "failed".data)
    (h3 : s ≠ "pending".data) :
    vStatus (some (.str s)) =
      .error "status must be one of passed, failed, pending".data := by
  rw [vStatus_str, if_neg h1, if_neg h2, if_neg h3]

/-- C1 counterexample: a payload whose metadata `status` element holds a
string outside `{passed, failed, pending}` fails validation (the
transformation forwards the value unchanged into the `Literal` field)
instead of defaulting to `pending`. -/

theorem status_unrecognized_fails_counterexample :
    (SimulationSummary.model_validate pBadStatus).isOk = false := by rfl

/-- C1 (amended): an unrecognized `status` string in the metadata array
makes validation fail (it is not replaced by `pending`); a payload whose
flattened metadata has no `status` key validates — when it validates at all
— to a record with status `pending`; and for each of the three valid
values, construct→serialize→reconstruct (null fields omitted on dump)
preserves the whole record, in particular the status. -/

theorem status_normalization_amended :
    (∀ (kvs md : PyDict JVal) (s : Str),
      dHas kvs "metadata".data = true → mdOf kvs = .ok md →
      dGet md "status".data = some (.str s) →
      s ≠ "passed".data → s ≠ "failed".data → s ≠ "pending".data →
      (SimulationSummary.model_validate (.obj kvs)).isOk = false) ∧
    (∀ (kvs md : PyDict JVal) (r : SummaryRec),
      dHas kvs "metadata".data = true → mdOf kvs = .ok md →
      dGet md "status".data = none →
      SimulationSummary.model_validate (.obj kvs) = .ok r → r.status = .pending) ∧
    (∀ (u a m cn d : Str) (st : Status),
      SimulationSummary.model_validate (.obj [
        ("uuid".data, .str u), ("alias".data, .str a), ("machine".data, .str m),
        ("code".data, .obj [("name".data, .str cn)]),
        ("description".data, .str d), ("status".data, .str st.toStr)]) =
        .ok ⟨u, a, m, ⟨cn, none⟩, d, st, none, none, none⟩ ∧
      SimulationSummary.model_validate
        (SummaryRec.dumpEN ⟨u, a, m, ⟨cn, none⟩, d, st, none, none, none⟩) =
        .ok ⟨u, a, m, ⟨cn, none⟩, d, st, none, none, none⟩) := by
  refine ⟨?_, ?_, ?_⟩
  · intro kvs md s hmeta hmd hst h1 h2 h3
    cases hok : (SimulationSummary.model_validate (.obj kvs)).isOk with
    | false => rfl
    | true =>
      exfalso
      obtain ⟨r, hr⟩ := except_ok_of_isOk hok
      unfold SimulationSummary.model_validate at hr
      obtain ⟨t, ht, hfv⟩ := exceptBind_ok hr
      obtain ⟨md', sm, hmd', hsm, hteq⟩ := transform_ok_with_metadata hmeta ht
      rw [hmd] at hmd'
      injection hmd' with hmdeq
      subst hmdeq
      subst hteq
      have h6 := (fvSummary_ok_fields hfv).2.2.2.2.2.1
      rw [buildT_status_of_some kvs sm hst, vStatus_invalid h1 h2 h3] at h6
      cases h6
  · intro kvs md r hmeta hmd hst hok
    unfold SimulationSummary.model_validate at hok
    obtain ⟨t, ht, hfv⟩ := exceptBind_ok hok
    obtain ⟨md', sm, hmd', hsm, hteq⟩ := transform_ok_with_metadata hmeta ht
    rw [hmd] at hmd'
    injection hmd' with hmdeq
    subst hmdeq
    subst hteq
    have h6 := (fvSummary_ok_fields hfv).2.2.2.2.2.1
    rw [buildT_status_of_none kvs sm hst] at h6
    have : vStatus (some (.str "pending".data)) = .ok .pending := rfl
    rw [this] at h6
    injection h6 with h'
    exact h'.symm
  · intro u a m cn d st
    cases st <;> exact ⟨rfl, rfl⟩

/-- Witness for C1 (amended): the three parts at concrete inputs — the
`"unknown"` status fails, an empty metadata array defaults to `pending`,
and a `failed` record round-trips. -/

theorem status_normalization_amended_witness :
    (SimulationSummary.model_validate pBadStatus).isOk = false ∧
    (∀ r, SimulationSummary.model_validate (.obj [
        ("uuid".data, .str "u".data), ("alias".data, .str "a".data),
        ("metadata".data, .arr [])]) = .ok r → r.status = .pending) ∧
    SimulationSummary.model_validate
      (SummaryRec.dumpEN ⟨"u".data, "a".data, "m".data, ⟨"c".data, none⟩, "d".data,
        .failed, none, none, none⟩) =
      .ok ⟨"u".data, "a".data, "m".data, ⟨"c".data, none⟩, "d".data,
        .failed, none, none, none⟩ := by
  refine ⟨?_, ?_, ?_⟩
  · exact status_normalization_amended.1 (match pBadStatus with
      | .obj kvs => kvs
      | _ => []) [("status".data, .str "unknown".data)] "unknown".data
      (by decide) rfl rfl (by decide) (by decide) (by decide)
  · intro r hok
    exact status_normalization_amended.2.1 [
        ("uuid".data, .str "u".data), ("alias".data, .str "a".data),
        ("metadata".data, .arr [])] [] r (by decide) rfl rfl hok
  · exact (status_normalization_amended.2.2 "u".data "a".data "m".data "c".data
      "d".data .failed).2
